import Mathlib

/-!
Verification of poly-mesh, `basicIdea.js`.

A shallow embedding of the three classes of `basicIdea.js` (`Simulation`, `Agent`,
`Controller`) and the properties of its tick, of the agent's connection state machine
and of the proximity test.

Conventions of the embedding.

* JavaScript numbers are taken over exact arithmetic: coordinates, times and the
  proximity radius are rationals (every finite double is one). `Math.sqrt` is the real
  square root.
* `Date.now()` and the base time of `setTimeout` are the explicit argument `now` of the
  method that reads them; the callback of `setInterval` runs to completion, and takes one
  reading `now` for the whole tick.
* `this.onEvent(e)` is modelled by the method returning the events it hands to the
  handler, in order; the caller applies the agent's `onEvent` to the controller.
* The timer queue of the runtime is explicit: every agent carries the list of the pending
  timers whose callback closes over it, and the supply of fresh handles. `setTimeout`
  appends a timer, `clearTimeout` removes the timer with the given handle, and a timer may
  fire only when its delay has elapsed.
* Objects of the agent array are identified by their index in the list (the array holds
  pairwise distinct objects), so `receiver !== emitter` is inequality of indices.
* `controller.connections` is a plain object used as a map: the model keeps its own
  properties, and the key "__proto__" behaves as it does on a plain object.
* `console.log` is not modelled.
-/

namespace PolyMesh

/-- The event objects `{ type, id, to }` handed to `onEvent`; a `DISCONNECTED` event has
no field `to` (the field is named `to_` here, `to` being reserved). -/
structure Event where
  type : String
  id : String
  to_ : Option String
  deriving DecidableEq

/-- The own properties of the plain object `controller.connections`: a key is absent
(`none`) or bound to the value of the field `to` of an event. -/
abbrev Connections := String → Option (Option String)

/-- State of `class Controller`. -/
structure Controller where
  connections : Connections

/-- A pending timer created by `setTimeout`: its handle and the earliest time at which
the runtime may run its callback. -/
structure Timer where
  handle : Nat
  due : ℚ
  deriving DecidableEq

/-- State of `class Agent`: the fields set by the constructor, `connected` (undefined,
hence falsy, until `receiveSignal` sets it), and the runtime's timers of this agent. -/
structure Agent where
  id : String
  x : ℚ
  y : ℚ
  state : String
  timeout : Option Nat
  switchInterval : ℚ
  onEvent : Event → Controller → Controller
  lastSwitch : ℚ
  connected : Bool
  timers : List Timer
  nextHandle : Nat

/-- One call `receiver.receiveSignal(emitter.id)` of the scan, recorded with the indices
of the emitter and of the receiver in the agent array. -/
structure Call where
  emitter : Nat
  receiver : Nat
  emitterId : String
  deriving DecidableEq

/-- State of `class Simulation`, with the live interval timers of the runtime and two
logs: the events handed to handlers and the `receiveSignal` calls made, oldest first. -/
structure Simulation where
  controller : Controller
  agents : List Agent
  proximityRadius : ℚ
  interval : Option Nat
  liveIntervals : List Nat
  nextInterval : Nat
  trace : List Event
  calls : List Call

/-! ## Controller -/

/-- Embeds `Controller.handleEvent`. `connections` is a plain object, whose prototype is
`Object.prototype`: the assignment `this.connections[event.id] = event.to` with the key
"__proto__", when the object has no own property of that name, runs the setter of
`Object.prototype.__proto__`, which ignores a value that is a string or undefined, and so
stores nothing. Every other key, and a key that is already an own property, is written.
`delete` removes an own property and does nothing else. -/
def Controller.handleEvent (c : Controller) (event : Event) : Controller :=
  if event.type = "CONNECTED" then
    if event.id = "__proto__" ∧ c.connections "__proto__" = none then c
    else
      { c with
        connections := fun k => if k = event.id then some event.to_ else c.connections k }
  else if event.type = "DISCONNECTED" then
    { c with connections := fun k => if k = event.id then none else c.connections k }
  else c

/-- Embeds `new Controller()`. -/
def Controller.new : Controller := { connections := fun _ => none }

/-! ## Agent -/

/-- Embeds `new Agent(id, x, y, onEvent)`; `random` is the value of `Math.random()` and
`now` the value of `Date.now()`. -/
def Agent.new (id : String) (x y : ℚ) (onEvent : Event → Controller → Controller)
    (random now : ℚ) : Agent :=
  { id := id, x := x, y := y, state := "E", timeout := none,
    switchInterval := random * 1000 + 500, onEvent := onEvent, lastSwitch := now,
    connected := false, timers := [], nextHandle := 0 }

/-- Embeds `Agent.update`. -/
def Agent.update (a : Agent) (now : ℚ) : Agent :=
  if now - a.lastSwitch ≥ a.switchInterval then
    { a with state := if a.state = "E" then "R" else "E", lastSwitch := now }
  else a

/-- The runtime's `clearTimeout(handle)` on a timer queue. -/
def clearTimeout (handle : Option Nat) (timers : List Timer) : List Timer :=
  match handle with
  | none => timers
  | some h => timers.filter fun t => t.handle ≠ h

/-- Embeds `Agent.scheduleDisconnection`: `clearTimeout(this.timeout)`, then
`this.timeout = setTimeout(callback, 1000)`. -/
def Agent.scheduleDisconnection (a : Agent) (now : ℚ) : Agent :=
  { a with
    timers := clearTimeout a.timeout a.timers ++ [{ handle := a.nextHandle, due := now + 1000 }],
    timeout := some a.nextHandle,
    nextHandle := a.nextHandle + 1 }

/-- Embeds `Agent.receiveSignal`; the second component is the events passed to
`this.onEvent`. -/
def Agent.receiveSignal (a : Agent) (emitterId : String) (now : ℚ) : Agent × List Event :=
  if !a.connected then
    (Agent.scheduleDisconnection { a with connected := true } now,
      [{ type := "CONNECTED", id := a.id, to_ := some emitterId }])
  else (a, [])

/-- The callback given to `setTimeout` in `scheduleDisconnection`. -/
def Agent.disconnect (a : Agent) : Agent × List Event :=
  ({ a with connected := false }, [{ type := "DISCONNECTED", id := a.id, to_ := none }])

/-- The runtime fires the timer `handle` of the agent at time `now`: when that timer is
pending and its delay has elapsed it leaves the queue and its callback runs; otherwise
nothing happens. -/
def Agent.fireTimer (a : Agent) (handle : Nat) (now : ℚ) : Agent × List Event :=
  if a.timers.any (fun t => decide (t.handle = handle ∧ t.due ≤ now)) then
    Agent.disconnect { a with timers := a.timers.filter fun t => t.handle ≠ handle }
  else (a, [])

/-! ## Simulation -/

/-- Embeds `Simulation.arePhysicallyClose`, with `Math.sqrt` the real square root. -/
def Simulation.arePhysicallyClose (s : Simulation) (agentA agentB : Agent) : Prop :=
  let dx := agentA.x - agentB.x
  let dy := agentA.y - agentB.y
  Real.sqrt ((dx * dx + dy * dy : ℚ) : ℝ) ≤ ((s.proximityRadius : ℚ) : ℝ)

/-- The comparison of `arePhysicallyClose` is decided in rational arithmetic, without
computing the root. -/
instance Simulation.decArePhysicallyClose (s : Simulation) (agentA agentB : Agent) :
    Decidable (s.arePhysicallyClose agentA agentB) :=
  decidable_of_iff
    (0 ≤ s.proximityRadius ∧
      (agentA.x - agentB.x) * (agentA.x - agentB.x) + (agentA.y - agentB.y) * (agentA.y - agentB.y)
        ≤ s.proximityRadius ^ 2)
    (by
      unfold Simulation.arePhysicallyClose
      rw [Real.sqrt_le_iff]
      norm_cast)

/-- The body of the inner `forEach` of `run`, for the emitter at index `i` and the
receiver at index `j`: the test of line 27 and, when it passes, the call
`receiver.receiveSignal(emitter.id)` with the delivery of its events to the receiver's
handler. -/
def Simulation.signal (s : Simulation) (now : ℚ) (i j : Nat) : Simulation :=
  match s.agents[i]?, s.agents[j]? with
  | some emitter, some receiver =>
    if j ≠ i ∧ receiver.state = "R" ∧ s.arePhysicallyClose emitter receiver then
      let r := receiver.receiveSignal emitter.id now
      { s with
        agents := s.agents.set j r.1,
        controller := r.2.foldl (fun c e => receiver.onEvent e c) s.controller,
        trace := s.trace ++ r.2,
        calls := s.calls ++ [{ emitter := i, receiver := j, emitterId := emitter.id }] }
    else s
  | _, _ => s

/-- The body of the `for` loop of `run` for index `i`: when `agents[i]` is emitting, the
inner `forEach` over all receivers. -/
def Simulation.emit (s : Simulation) (now : ℚ) (i : Nat) : Simulation :=
  match s.agents[i]? with
  | some emitter =>
    if emitter.state = "E" then
      (List.range s.agents.length).foldl (fun s j => s.signal now i j) s
    else s
  | none => s

/-- The proximity scan of `run`: the `for` loop over the emitters. -/
def Simulation.scan (s : Simulation) (now : ℚ) : Simulation :=
  (List.range s.agents.length).foldl (fun s i => s.emit now i) s

/-- The callback that `run` gives to `setInterval`, run at time `now`: every agent is
updated, then the scan. -/
def Simulation.tick (s : Simulation) (now : ℚ) : Simulation :=
  Simulation.scan { s with agents := s.agents.map fun agent => agent.update now } now

/-- Embeds `new Simulation(controller, agents, proximityRadius)`. -/
def Simulation.new (controller : Controller) (agents : List Agent) (proximityRadius : ℚ) :
    Simulation :=
  { controller := controller, agents := agents, proximityRadius := proximityRadius,
    interval := none, liveIntervals := [], nextInterval := 0, trace := [], calls := [] }

/-- Embeds `Simulation.run`: `this.interval = setInterval(callback, stepInterval)`. -/
def Simulation.run (s : Simulation) : Simulation :=
  { s with
    interval := some s.nextInterval,
    liveIntervals := s.liveIntervals ++ [s.nextInterval],
    nextInterval := s.nextInterval + 1 }

/-- Embeds `Simulation.stop`: `clearInterval(this.interval)`. -/
def Simulation.stop (s : Simulation) : Simulation :=
  match s.interval with
  | none => s
  | some h => { s with liveIntervals := s.liveIntervals.filter fun k => k ≠ h }

/-- The runtime fires timer `handle` of the agent at index `j` at time `now`, delivering
the callback's events to the agent's handler. -/
def Simulation.fireTimer (s : Simulation) (j handle : Nat) (now : ℚ) : Simulation :=
  match s.agents[j]? with
  | some agent =>
    let r := agent.fireTimer handle now
    { s with
      agents := s.agents.set j r.1,
      controller := r.2.foldl (fun c e => agent.onEvent e c) s.controller,
      trace := s.trace ++ r.2 }
  | none => s

/-- The calls `receiver.receiveSignal(emitter.id)` that a scan over `agents` is to make:
emitter index by emitter index, and for each emitter receiver index by receiver index, the
pairs with the emitter in state "E", the receiver in state "R", distinct, and close. -/
def Simulation.signalPairs (s : Simulation) (agents : List Agent) : List Call :=
  (List.range agents.length).flatMap fun i =>
    ((List.range agents.length).filter fun j =>
      match agents[i]?, agents[j]? with
      | some emitter, some receiver =>
        decide (emitter.state = "E" ∧ receiver.state = "R" ∧ j ≠ i ∧
          s.arePhysicallyClose emitter receiver)
      | _, _ => false).map fun j =>
        { emitter := i, receiver := j, emitterId := ((agents[i]?).map Agent.id).getD "" }

/-- The demo of lines 107-116 with the agents as constructed at time `now`, the three
values of `Math.random()` being `r₁ r₂ r₃`. -/
def demo (r₁ r₂ r₃ now : ℚ) : Simulation :=
  Simulation.new Controller.new
    [Agent.new "A" 0 0 (fun e c => c.handleEvent e) r₁ now,
     Agent.new "B" 5 5 (fun e c => c.handleEvent e) r₂ now,
     Agent.new "C" 9 9 (fun e c => c.handleEvent e) r₃ now] 10

/-! ## One agent over time -/

/-- What can happen to one agent: the tick calls `update`, a scan calls `receiveSignal`,
the runtime fires one of the agent's timers. Each carries the time at which it happens. -/
inductive Action where
  | update (now : ℚ)
  | receiveSignal (emitterId : String) (now : ℚ)
  | fireTimer (handle : Nat) (now : ℚ)

/-- The time at which an action happens. -/
def Action.time : Action → ℚ
  | .update now => now
  | .receiveSignal _ now => now
  | .fireTimer _ now => now

/-- Whether an action is a call of `receiveSignal`. -/
def Action.isSignal : Action → Bool
  | .receiveSignal _ _ => true
  | _ => false

/-- One action on an agent, with the events it emits. -/
def Agent.step (a : Agent) : Action → Agent × List Event
  | .update now => (a.update now, [])
  | .receiveSignal emitterId now => a.receiveSignal emitterId now
  | .fireTimer handle now => a.fireTimer handle now

/-- A sequence of actions on an agent, oldest first, with the events emitted, each
stamped with the time of the action that emitted it. -/
def Agent.run (a : Agent) : List Action → Agent × List (ℚ × Event)
  | [] => (a, [])
  | act :: rest =>
    ((Agent.run (a.step act).1 rest).1,
      (a.step act).2.map (fun e => (act.time, e)) ++ (Agent.run (a.step act).1 rest).2)

/-- A list of events alternates between "CONNECTED" and "DISCONNECTED"; `connected` tells
which one is due first: "DISCONNECTED" when `true`, "CONNECTED" when `false`. -/
def alternates : Bool → List Event → Prop
  | _, [] => True
  | false, e :: es => e.type = "CONNECTED" ∧ alternates true es
  | true, e :: es => e.type = "DISCONNECTED" ∧ alternates false es

/-- The connection state of the agents the code can produce: not connected with no
pending timer, or connected with exactly one pending timer, the one `timeout` names. -/
def Agent.Settled (a : Agent) : Prop :=
  (a.connected = false ∧ a.timers = []) ∨
    (a.connected = true ∧ ∃ t, a.timers = [t] ∧ a.timeout = some t.handle)

/-! ## What the scan reads -/

/-- The fields of an agent that the scan reads and that no method called by the scan
writes. -/
def Agent.core (a : Agent) : String × ℚ × ℚ × String × (Event → Controller → Controller) :=
  (a.id, a.x, a.y, a.state, a.onEvent)

/-- The simulation `s` has the radius of `s₀` and, agent by agent, the same id, position,
state and handler. -/
def Simulation.Frame (s₀ s : Simulation) : Prop :=
  s.proximityRadius = s₀.proximityRadius ∧ s.agents.map Agent.core = s₀.agents.map Agent.core

/-- The test of line 27 for the agents at indices `i` (emitter) and `j` (receiver). -/
def Simulation.reach (s : Simulation) (i j : Nat) : Bool :=
  match s.agents[i]?, s.agents[j]? with
  | some emitter, some receiver =>
    decide (j ≠ i ∧ receiver.state = "R" ∧ s.arePhysicallyClose emitter receiver)
  | _, _ => false

/-- The test of line 25 for the agent at index `i`. -/
def Simulation.emitting (s : Simulation) (i : Nat) : Bool :=
  match s.agents[i]? with
  | some emitter => decide (emitter.state = "E")
  | none => false

/-- The event `ev` is the CONNECTED event of a signal from one agent of `s` to another:
its `id` is the receiver's id and its `to` the emitter's id, at distinct indices. -/
def Simulation.Connects (s : Simulation) (ev : Event) : Prop :=
  ∃ (i j : Nat) (e r : Agent), s.agents[i]? = some e ∧ s.agents[j]? = some r ∧ j ≠ i ∧
    ev = { type := "CONNECTED", id := r.id, to_ := some e.id }

/-- The agent at index `j` is not connected. -/
def Simulation.Waiting (s : Simulation) (j : Nat) : Prop :=
  ∃ a, s.agents[j]? = some a ∧ a.connected = false

/-- The agent at index `j` is connected and the controller maps the key `rid` to `eid`. -/
def Simulation.Linked (s : Simulation) (j : Nat) (rid eid : String) : Prop :=
  (∃ a, s.agents[j]? = some a ∧ a.connected = true) ∧
    s.controller.connections rid = some (some eid)

/-- The handler of every agent is `handleEvent` of the controller, as in the demo. -/
def Simulation.Wired (s : Simulation) : Prop :=
  ∀ a ∈ s.agents, a.onEvent = fun ev c => c.handleEvent ev

/-- The constructor of `Simulation` as an operation that may throw: the source has no
check and no `throw`, so it returns normally on every input. -/
def Simulation.construct (controller : Controller) (agents : List Agent) (proximityRadius : ℚ) :
    Except String Simulation :=
  .ok (Simulation.new controller agents proximityRadius)

/-- `Simulation.run(stepInterval)` as an operation that may throw: it passes `stepInterval`
to `setInterval` unchecked and returns normally on every input. -/
def Simulation.start (s : Simulation) (_stepInterval : ℚ) : Except String Simulation :=
  .ok s.run

/-! ## The simulation over time -/

/-- What the runtime does to a running program: the interval timer fires and the tick
runs at time `now`, or the timer `handle` of the agent at index `j` fires at time `now`. -/
inductive SimAction where
  | tick (now : ℚ)
  | fireTimer (j handle : Nat) (now : ℚ)

/-- One action of the runtime. The tick runs only while an interval timer is live. -/
def Simulation.step (s : Simulation) : SimAction → Simulation
  | .tick now => if s.liveIntervals.isEmpty then s else s.tick now
  | .fireTimer j handle now => s.fireTimer j handle now

/-- A sequence of actions of the runtime, oldest first. -/
def Simulation.exec (s : Simulation) (acts : List SimAction) : Simulation :=
  acts.foldl Simulation.step s

/-- The agent at index `k` has `connected = b` and the controller has `c` at `key`. -/
def Simulation.Held (s : Simulation) (k : Nat) (key : String) (c : Option (Option String))
    (b : Bool) : Prop :=
  (∃ a, s.agents[k]? = some a ∧ a.connected = b) ∧ s.controller.connections key = c

/-- The controller's map mirrors the agents: a key is bound exactly when it is the id of a
connected agent. -/
def Simulation.Synced (s : Simulation) : Prop :=
  ∀ key, s.controller.connections key ≠ none ↔
    ∃ (k : Nat) (a : Agent), s.agents[k]? = some a ∧ a.id = key ∧ a.connected = true

/-- The states the program reaches from agents none of which has the id "__proto__":
pairwise distinct ids, every handler the controller's `handleEvent`, every agent settled,
the controller's map mirroring the agents, and still no id "__proto__". -/
def Simulation.Sound (s : Simulation) : Prop :=
  (s.agents.map Agent.id).Nodup ∧ s.Wired ∧
    (∀ (k : Nat) (a : Agent), s.agents[k]? = some a → a.Settled) ∧ s.Synced ∧
    ∀ (k : Nat) (a : Agent), s.agents[k]? = some a → a.id ≠ "__proto__"

/-- The tick of `s` at time `now` opens a connection episode for `key` with value `v`: the
controller has no entry for `key` before the tick and, after the updates of the tick, an
agent in state "E" is close to another agent, in state "R", whose id is `key`; `v` is the
emitter's id. -/
def Simulation.Opens (s : Simulation) (now : ℚ) (key : String) (v : Option String) : Prop :=
  s.controller.connections key = none ∧
    ∃ (i j : Nat) (e r : Agent),
      (s.agents.map fun a => a.update now)[i]? = some e ∧
      (s.agents.map fun a => a.update now)[j]? = some r ∧
      e.state = "E" ∧ r.state = "R" ∧ j ≠ i ∧ s.arePhysicallyClose e r ∧
      r.id = key ∧ v = some e.id

/-- The entry `v` of the controller for `key` after the actions `acts` on `s₀` belongs to an
episode opened by a tick among `acts`: that tick opens `key` with `v`, and the entry is `v`
after it and after every later action. -/
def Simulation.Episode (s₀ : Simulation) (acts : List SimAction) (key : String)
    (v : Option String) : Prop :=
  ∃ (pre : List SimAction) (now : ℚ) (post : List SimAction),
    acts = pre ++ SimAction.tick now :: post ∧ (s₀.exec pre).Opens now key v ∧
      ∀ post', post' <+: post →
        (s₀.exec (pre ++ SimAction.tick now :: post')).controller.connections key = some v

/-! ## The proximity test -/

theorem arePhysicallyClose_iff (s : Simulation) (agentA agentB : Agent) :
    s.arePhysicallyClose agentA agentB ↔
      0 ≤ s.proximityRadius ∧
        (agentA.x - agentB.x) ^ 2 + (agentA.y - agentB.y) ^ 2 ≤ s.proximityRadius ^ 2 := by
  unfold Simulation.arePhysicallyClose
  rw [Real.sqrt_le_iff]
  norm_cast
  simp only [pow_two]

/-- C7: `arePhysicallyClose(A, B)` holds exactly when the radius is non-negative and the
squared Euclidean distance of the two agents is at most the squared radius, the boundary
included: for A = (0,0) and B = (10,0) it holds at radius 10 and fails at radius 9.999,
and at radius 0 it holds exactly for co-located agents. -/
theorem arePhysicallyClose_euclidean (s : Simulation) (A B : Agent) :
    (s.arePhysicallyClose A B ↔
      0 ≤ s.proximityRadius ∧ (A.x - B.x) ^ 2 + (A.y - B.y) ^ 2 ≤ s.proximityRadius ^ 2) ∧
    (s.arePhysicallyClose A B ↔
      Real.sqrt ((((A.x - B.x) ^ 2 + (A.y - B.y) ^ 2 : ℚ) : ℝ)) ≤ ((s.proximityRadius : ℚ) : ℝ)) ∧
    Simulation.arePhysicallyClose { s with proximityRadius := 10 }
      { A with x := 0, y := 0 } { B with x := 10, y := 0 } ∧
    ¬ Simulation.arePhysicallyClose { s with proximityRadius := 9999 / 1000 }
      { A with x := 0, y := 0 } { B with x := 10, y := 0 } ∧
    (Simulation.arePhysicallyClose { s with proximityRadius := 0 } A B ↔ A.x = B.x ∧ A.y = B.y) := by
  refine ⟨arePhysicallyClose_iff s A B, ?_, ?_, ?_, ?_⟩
  · unfold Simulation.arePhysicallyClose
    simp only [pow_two]
  · rw [arePhysicallyClose_iff]
    norm_num
  · rw [arePhysicallyClose_iff]
    norm_num
  · rw [arePhysicallyClose_iff]
    constructor
    · rintro ⟨-, h⟩
      have h : (A.x - B.x) ^ 2 + (A.y - B.y) ^ 2 ≤ 0 := by simpa using h
      have hx : (A.x - B.x) ^ 2 = 0 := by nlinarith [sq_nonneg (A.x - B.x), sq_nonneg (A.y - B.y)]
      have hy : (A.y - B.y) ^ 2 = 0 := by nlinarith [sq_nonneg (A.x - B.x), sq_nonneg (A.y - B.y)]
      exact ⟨sub_eq_zero.mp (pow_eq_zero_iff (two_ne_zero)|>.mp hx),
        sub_eq_zero.mp (pow_eq_zero_iff (two_ne_zero)|>.mp hy)⟩
    · rintro ⟨hx, hy⟩
      simp [hx, hy]

/-- C8: the proximity test is symmetric in its two agents, as a proposition and as the
Boolean the code computes. -/
theorem arePhysicallyClose_symm (s : Simulation) (A B : Agent) :
    (s.arePhysicallyClose A B ↔ s.arePhysicallyClose B A) ∧
    decide (s.arePhysicallyClose A B) = decide (s.arePhysicallyClose B A) := by
  have h : s.arePhysicallyClose A B ↔ s.arePhysicallyClose B A := by
    rw [arePhysicallyClose_iff, arePhysicallyClose_iff]
    have hx : (A.x - B.x) ^ 2 = (B.x - A.x) ^ 2 := by ring
    have hy : (A.y - B.y) ^ 2 = (B.y - A.y) ^ 2 := by ring
    rw [hx, hy]
  exact ⟨h, decide_eq_decide.mpr h⟩

/-! ## The role switch -/

/-- C6: `update` at time `now` flips the state ("E" to "R", "R" to "E") and sets
`lastSwitch` to `now` when `now - lastSwitch >= switchInterval`, and otherwise changes
nothing; so the state changes if and only if that condition holds. An agent with
`switchInterval = P` and `lastSwitch = t0` flips at `t0 + P` and does not at any earlier
time. -/
theorem update_flips_iff (a : Agent) (now : ℚ) :
    (now - a.lastSwitch ≥ a.switchInterval →
      (a.update now).state = (if a.state = "E" then "R" else "E") ∧
      (a.state = "E" → (a.update now).state = "R") ∧
      (a.state = "R" → (a.update now).state = "E") ∧
      (a.update now).lastSwitch = now) ∧
    (¬ now - a.lastSwitch ≥ a.switchInterval → a.update now = a) ∧
    ((a.update now).state ≠ a.state ↔ now - a.lastSwitch ≥ a.switchInterval) ∧
    ((a.update (a.lastSwitch + a.switchInterval)).state ≠ a.state ∧
      (a.update (a.lastSwitch + a.switchInterval)).lastSwitch = a.lastSwitch + a.switchInterval) ∧
    (now < a.lastSwitch + a.switchInterval → a.update now = a) := by
  have hflip : (if a.state = "E" then "R" else "E") ≠ a.state := by
    split
    next h => rw [h]; decide
    next h => exact fun h' => h h'.symm
  refine ⟨?_, ?_, ?_, ?_, ?_⟩
  · intro h
    simp only [Agent.update, if_pos h]
    refine ⟨trivial, ?_, ?_, trivial⟩
    · intro hE; simp [hE]
    · intro hR; simp [hR]
  · intro h
    simp only [Agent.update, if_neg h]
  · by_cases h : now - a.lastSwitch ≥ a.switchInterval
    · simp only [Agent.update, if_pos h]
      exact ⟨fun _ => h, fun _ => hflip⟩
    · simp only [Agent.update, if_neg h]
      exact ⟨fun hne => absurd rfl hne, fun hc => absurd hc h⟩
  · have h : a.lastSwitch + a.switchInterval - a.lastSwitch ≥ a.switchInterval := by
      simp
    simp only [Agent.update, if_pos h, and_true]
    exact hflip
  · intro h
    have h' : ¬ now - a.lastSwitch ≥ a.switchInterval := by
      intro hc
      linarith
    simp only [Agent.update, if_neg h']

/-- Witness of C6 on an agent built by the constructor at time 0 with
`switchInterval = 1000`: updated at 1000 it is in state "R", updated at 999 it is
unchanged. -/
theorem update_flips_iff_witness :
    ((Agent.new "A" 0 0 (fun e c => c.handleEvent e) (1 / 2) 0).update 1000).state = "R" ∧
    (Agent.new "A" 0 0 (fun e c => c.handleEvent e) (1 / 2) 0).update 999 =
      Agent.new "A" 0 0 (fun e c => c.handleEvent e) (1 / 2) 0 :=
  ⟨((update_flips_iff (Agent.new "A" 0 0 (fun e c => c.handleEvent e) (1 / 2) 0) 1000).1
      (by norm_num [Agent.new])).2.1 rfl,
   (update_flips_iff (Agent.new "A" 0 0 (fun e c => c.handleEvent e) (1 / 2) 0) 999).2.2.2.2
      (by norm_num [Agent.new])⟩

/-! ## The connection state machine of one agent -/

theorem receiveSignal_of_not_connected (a : Agent) (emitterId : String) (now : ℚ)
    (h : a.connected = false) :
    a.receiveSignal emitterId now =
      (Agent.scheduleDisconnection { a with connected := true } now,
        [{ type := "CONNECTED", id := a.id, to_ := some emitterId }]) := by
  simp [Agent.receiveSignal, h]

theorem receiveSignal_of_connected (a : Agent) (emitterId : String) (now : ℚ)
    (h : a.connected = true) : a.receiveSignal emitterId now = (a, []) := by
  simp [Agent.receiveSignal, h]

/-- C2: on an agent that is not connected, `receiveSignal(emitterId)` at time `now` sets
`connected`, hands exactly one event CONNECTED{id, to: emitterId} to the handler, and
leaves in `timeout` the handle of a pending timer due at `now + 1000`, the timer that
`timeout` named before being cleared. -/
theorem receiveSignal_connects (a : Agent) (emitterId : String) (now : ℚ)
    (h : a.connected = false) :
    (a.receiveSignal emitterId now).1.connected = true ∧
    (a.receiveSignal emitterId now).2 =
      [{ type := "CONNECTED", id := a.id, to_ := some emitterId }] ∧
    (∃ t ∈ (a.receiveSignal emitterId now).1.timers,
      (a.receiveSignal emitterId now).1.timeout = some t.handle ∧ t.due = now + 1000) ∧
    (∀ t ∈ (a.receiveSignal emitterId now).1.timers, a.timeout = some t.handle →
      t.handle = a.nextHandle ∧ t.due = now + 1000) := by
  rw [receiveSignal_of_not_connected a emitterId now h]
  refine ⟨rfl, rfl, ⟨⟨a.nextHandle, now + 1000⟩, ?_, rfl, rfl⟩, ?_⟩
  · simp [Agent.scheduleDisconnection]
  · intro t ht hto
    simp only [Agent.scheduleDisconnection, List.mem_append, List.mem_singleton] at ht
    rcases ht with ht | ht
    · simp only [hto, clearTimeout, List.mem_filter] at ht
      simp at ht
    · subst ht
      exact ⟨rfl, rfl⟩

/-- Witness of C2 on a freshly constructed agent "B" signalled by "A" at time 5. -/
theorem receiveSignal_connects_witness :
    ((Agent.new "B" 5 5 (fun e c => c.handleEvent e) 0 0).receiveSignal "A" 5).1.connected
      = true ∧
    ((Agent.new "B" 5 5 (fun e c => c.handleEvent e) 0 0).receiveSignal "A" 5).2 =
      [{ type := "CONNECTED", id := "B", to_ := some "A" }] :=
  ⟨(receiveSignal_connects (Agent.new "B" 5 5 (fun e c => c.handleEvent e) 0 0) "A" 5 rfl).1,
   (receiveSignal_connects (Agent.new "B" 5 5 (fun e c => c.handleEvent e) 0 0) "A" 5 rfl).2.1⟩

/-- C3 on the code: an agent connected at time 0 has its timer due at 1000; a second
`receiveSignal` at time 500 returns without touching the timer, which stays due at 1000
and is not moved to 1500, and it emits no event. -/
theorem receiveSignal_connected_keeps_deadline :
    (((Agent.new "B" 5 5 (fun e c => c.handleEvent e) 0 0).receiveSignal "A" 0).1.receiveSignal
      "A" 500).1.timers = [{ handle := 0, due := 1000 }] ∧
    (((Agent.new "B" 5 5 (fun e c => c.handleEvent e) 0 0).receiveSignal "A" 0).1.receiveSignal
      "A" 500).2 = [] ∧
    (((Agent.new "B" 5 5 (fun e c => c.handleEvent e) 0 0).receiveSignal "A" 0).1.receiveSignal
      "A" 500).1.timers.all (fun t => decide (t.due ≠ 500 + 1000)) = true := by
  refine ⟨?_, ?_, ?_⟩
  · norm_num [Agent.new, Agent.receiveSignal, Agent.scheduleDisconnection, clearTimeout]
  · norm_num [Agent.new, Agent.receiveSignal, Agent.scheduleDisconnection, clearTimeout]
  · norm_num [Agent.new, Agent.receiveSignal, Agent.scheduleDisconnection, clearTimeout]

theorem update_frame (a : Agent) (now : ℚ) :
    (a.update now).id = a.id ∧ (a.update now).connected = a.connected ∧
    (a.update now).timers = a.timers ∧ (a.update now).timeout = a.timeout := by
  unfold Agent.update
  split <;> exact ⟨rfl, rfl, rfl, rfl⟩

/-- The three ways a step acts on a settled agent: it emits nothing and leaves the
connection state alone; or it is a signal on an agent not connected, which connects it and
starts its only timer; or it is the firing of the only timer, due, which disconnects. -/
theorem step_cases (a : Agent) (act : Action) (h : a.Settled) :
    ((a.step act).2 = [] ∧ (a.step act).1.connected = a.connected ∧
      (a.step act).1.timers = a.timers ∧ (a.step act).1.timeout = a.timeout ∧
      (a.step act).1.id = a.id) ∨
    (a.connected = false ∧ ∃ emitterId now, act = .receiveSignal emitterId now ∧
      (a.step act).2 = [{ type := "CONNECTED", id := a.id, to_ := some emitterId }] ∧
      (a.step act).1.connected = true ∧
      (a.step act).1.timers = [{ handle := a.nextHandle, due := now + 1000 }] ∧
      (a.step act).1.timeout = some a.nextHandle ∧ (a.step act).1.id = a.id) ∨
    (a.connected = true ∧ ∃ handle now t, act = .fireTimer handle now ∧ a.timers = [t] ∧
      t.handle = handle ∧ t.due ≤ now ∧
      (a.step act).2 = [{ type := "DISCONNECTED", id := a.id, to_ := none }] ∧
      (a.step act).1.connected = false ∧ (a.step act).1.timers = [] ∧
      (a.step act).1.id = a.id) := by
  cases act with
  | update now =>
    left
    obtain ⟨h1, h2, h3, h4⟩ := update_frame a now
    exact ⟨rfl, h2, h3, h4, h1⟩
  | receiveSignal emitterId now =>
    cases hc : a.connected with
    | true =>
      left
      have hs : a.step (.receiveSignal emitterId now) = (a, []) :=
        receiveSignal_of_connected a emitterId now hc
      rw [hs]
      exact ⟨rfl, hc, rfl, rfl, rfl⟩
    | false =>
      right; left
      have ht : a.timers = [] := by
        rcases h with ⟨_, h⟩ | ⟨h, _⟩
        · exact h
        · rw [hc] at h; cases h
      have hs : a.step (.receiveSignal emitterId now) = _ :=
        receiveSignal_of_not_connected a emitterId now hc
      refine ⟨rfl, emitterId, now, rfl, ?_⟩
      rw [hs]
      refine ⟨rfl, rfl, ?_, rfl, rfl⟩
      simp only [Agent.scheduleDisconnection, ht]
      cases a.timeout <;> simp [clearTimeout]
  | fireTimer handle now =>
    rcases h with ⟨hc, ht⟩ | ⟨hc, t, ht, hto⟩
    · left
      have hs : a.step (.fireTimer handle now) = (a, []) := by
        simp [Agent.step, Agent.fireTimer, ht]
      rw [hs]
      exact ⟨rfl, rfl, rfl, rfl, rfl⟩
    · by_cases hf : t.handle = handle ∧ t.due ≤ now
      · right; right
        have hs : a.step (.fireTimer handle now) =
            ({ a with timers := [], connected := false },
              [{ type := "DISCONNECTED", id := a.id, to_ := none }]) := by
          simp [Agent.step, Agent.fireTimer, ht, hf, Agent.disconnect]
        refine ⟨hc, handle, now, t, rfl, ht, hf.1, hf.2, ?_⟩
        rw [hs]
        exact ⟨rfl, rfl, rfl, rfl⟩
      · left
        have hs : a.step (.fireTimer handle now) = (a, []) := by
          simp only [Agent.step, Agent.fireTimer, ht, List.any_cons, List.any_nil, Bool.or_false,
            decide_eq_true_eq, if_neg hf]
        rw [hs]
        exact ⟨rfl, rfl, rfl, rfl, rfl⟩

theorem settled_new (id : String) (x y : ℚ) (onEvent : Event → Controller → Controller)
    (random now : ℚ) : (Agent.new id x y onEvent random now).Settled :=
  Or.inl ⟨rfl, rfl⟩

theorem settled_step (a : Agent) (act : Action) (h : a.Settled) : (a.step act).1.Settled := by
  rcases step_cases a act h with ⟨_, hc, ht, hto, _⟩ | ⟨_, _, _, _, _, hc, ht, hto, _⟩ |
      ⟨_, _, _, _, _, _, _, _, _, hc, ht, _⟩
  · unfold Agent.Settled
    rw [hc, ht, hto]
    exact h
  · exact Or.inr ⟨hc, _, ht, hto⟩
  · exact Or.inl ⟨hc, ht⟩

theorem settled_run (acts : List Action) (a : Agent) (h : a.Settled) :
    (a.run acts).1.Settled := by
  induction acts generalizing a with
  | nil => exact h
  | cons act rest ih => exact ih _ (settled_step a act h)

theorem run_id (acts : List Action) (a : Agent) (h : a.Settled) : (a.run acts).1.id = a.id := by
  induction acts generalizing a with
  | nil => rfl
  | cons act rest ih =>
    have hid : (a.step act).1.id = a.id := by
      rcases step_cases a act h with ⟨_, _, _, _, hid⟩ | ⟨_, _, _, _, _, _, _, _, hid⟩ |
        ⟨_, _, _, _, _, _, _, _, _, _, _, hid⟩ <;> exact hid
    exact (ih _ (settled_step a act h)).trans hid

theorem run_alternates (acts : List Action) (a : Agent) (h : a.Settled) :
    alternates a.connected ((a.run acts).2.map Prod.snd) := by
  induction acts generalizing a with
  | nil => cases a.connected <;> exact trivial
  | cons act rest ih =>
    have ih' := ih _ (settled_step a act h)
    simp only [Agent.run, List.map_append, List.map_map]
    rcases step_cases a act h with ⟨he, hc, _⟩ | ⟨hn, _, _, _, he, hc, _⟩ |
        ⟨hn, _, _, _, _, _, _, _, he, hc, _⟩
    · rw [he, ← hc]
      exact ih'
    · rw [he, hn]
      rw [hc] at ih'
      exact ⟨rfl, ih'⟩
    · rw [he, hn]
      rw [hc] at ih'
      exact ⟨rfl, ih'⟩

/-- C4: whatever sequence of updates, signals and timer firings a freshly constructed
agent goes through, the events it emits alternate CONNECTED, DISCONNECTED, CONNECTED, ...,
starting with CONNECTED, and each carries the agent's id. -/
theorem events_alternate (id : String) (x y : ℚ) (onEvent : Event → Controller → Controller)
    (random t0 : ℚ) (acts : List Action) :
    alternates false (((Agent.new id x y onEvent random t0).run acts).2.map Prod.snd) := by
  exact run_alternates acts _ (settled_new id x y onEvent random t0)

theorem idle_run (post : List Action) (a : Agent) (hc : a.connected = false)
    (ht : a.timers = []) (hpost : ∀ act ∈ post, act.isSignal = false) : (a.run post).2 = [] := by
  induction post generalizing a with
  | nil => rfl
  | cons act rest ih =>
    have hrest : ∀ act ∈ rest, act.isSignal = false := fun b hb =>
      hpost b (List.mem_cons_of_mem _ hb)
    rcases step_cases a act (Or.inl ⟨hc, ht⟩) with ⟨he, hc', ht', _⟩ | ⟨_, _, _, hact, _⟩ |
        ⟨hn, _⟩
    · simp only [Agent.run, he, List.map_nil, List.nil_append]
      exact ih _ (hc'.trans hc) (ht'.trans ht) hrest
    · have := hpost act (List.mem_cons_self _ _)
      rw [hact] at this
      cases this
    · rw [hc] at hn
      cases hn

theorem armed_run (post : List Action) (a : Agent) (h : Nat) (T : ℚ) (hc : a.connected = true)
    (ht : a.timers = [{ handle := h, due := T + 1000 }]) (hto : a.timeout = some h)
    (hpost : ∀ act ∈ post, act.isSignal = false) :
    (∀ p ∈ (a.run post).2,
      T + 1000 ≤ p.1 ∧ p.2 = { type := "DISCONNECTED", id := a.id, to_ := none }) ∧
    (a.run post).2.length ≤ 1 ∧
    ((a.run post).2 = [] → (a.run post).1.connected = true ∧
      (a.run post).1.timers = [{ handle := h, due := T + 1000 }] ∧
      (a.run post).1.timeout = some h ∧ (a.run post).1.id = a.id) := by
  induction post generalizing a with
  | nil => exact ⟨fun p hp => (by cases hp), Nat.zero_le _, fun _ => ⟨hc, ht, hto, rfl⟩⟩
  | cons act rest ih =>
    have hrest : ∀ act ∈ rest, act.isSignal = false := fun b hb =>
      hpost b (List.mem_cons_of_mem _ hb)
    rcases step_cases a act (Or.inr ⟨hc, _, ht, hto⟩) with ⟨he, hc', ht', hto', hid⟩ |
        ⟨hn, _⟩ | ⟨_, handle, now, t, hact, hts, _, hdue, he, hc', ht', _⟩
    · simp only [Agent.run, he, List.map_nil, List.nil_append]
      have := ih _ (hc'.trans hc) (ht'.trans ht) (hto'.trans hto) hrest
      rw [hid] at this
      exact this
    · rw [hc] at hn
      cases hn
    · have hnil := idle_run rest _ hc' ht' hrest
      simp only [Agent.run, he, hnil, List.append_nil, List.map_cons, List.map_nil,
        List.mem_singleton, List.length_singleton, le_refl, true_and]
      refine ⟨?_, fun hcontra => by cases hcontra⟩
      intro p hp
      subst hp
      rw [ht] at hts
      cases hts
      rw [hact]
      exact ⟨hdue, rfl⟩

/-- C5: an agent that becomes connected by a signal at time `T` and then goes through
updates and timer firings only emits nothing before `T + 1000`: every event it emits is
stamped `T + 1000` or later, is DISCONNECTED{id} and there is at most one; and as long as
it has not disconnected, firing the timer `timeout` names at any time from `T + 1000` on
sets `connected` to false and emits DISCONNECTED{id}. -/
theorem disconnected_not_before_deadline (id : String) (x y : ℚ)
    (onEvent : Event → Controller → Controller) (random t0 : ℚ) (pre post : List Action)
    (emitterId : String) (T : ℚ)
    (hidle : ((Agent.new id x y onEvent random t0).run pre).1.connected = false)
    (hpost : ∀ act ∈ post, act.isSignal = false) :
    let a := ((Agent.new id x y onEvent random t0).run pre).1
    let a₁ := (a.receiveSignal emitterId T).1
    a₁.connected = true ∧
    (∀ p ∈ (a₁.run post).2,
      T + 1000 ≤ p.1 ∧ p.2 = { type := "DISCONNECTED", id := id, to_ := none }) ∧
    (a₁.run post).2.length ≤ 1 ∧
    ((a₁.run post).2 = [] → ∀ now, T + 1000 ≤ now →
      ∃ handle, (a₁.run post).1.timeout = some handle ∧
        ((a₁.run post).1.fireTimer handle now).1.connected = false ∧
        ((a₁.run post).1.fireTimer handle now).2 =
          [{ type := "DISCONNECTED", id := id, to_ := none }]) := by
  intro a a₁
  have hset : a.Settled := settled_run pre _ (settled_new id x y onEvent random t0)
  have hid : a.id = id := run_id pre _ (settled_new id x y onEvent random t0)
  have hcases := step_cases a (.receiveSignal emitterId T) hset
  have hstep : a.step (.receiveSignal emitterId T) = a.receiveSignal emitterId T := rfl
  rw [hstep] at hcases
  rcases hcases with ⟨he, _⟩ | ⟨_, e', now', hact, _, hc₁, ht₁, hto₁, hid₁⟩ | ⟨hn, _⟩
  · rw [receiveSignal_of_not_connected a emitterId T hidle] at he
    cases he
  · cases hact
    obtain ⟨h1, h2, h3⟩ := armed_run post a₁ a.nextHandle T hc₁ ht₁ hto₁ hpost
    have hid' : a₁.id = id := hid₁.trans hid
    rw [hid'] at h1 h3
    refine ⟨hc₁, h1, h2, ?_⟩
    intro hnil now hnow
    obtain ⟨hc₂, ht₂, hto₂, hid₂⟩ := h3 hnil
    refine ⟨a.nextHandle, hto₂, ?_⟩
    simp [Agent.fireTimer, ht₂, hnow, Agent.disconnect, hid₂]
  · rw [hidle] at hn
    cases hn

/-- Witness of C5: agent "B", constructed at time 0, is signalled by "A" at time 100,
updated at 600, and its timer is fired at 1100. -/
theorem disconnected_not_before_deadline_witness :
    ((((Agent.new "B" 5 5 (fun e c => c.handleEvent e) 0 0).run []).1.receiveSignal
        "A" 100).1.run [.update 600, .fireTimer 0 1100]).2.all (fun p =>
      decide ((100 : ℚ) + 1000 ≤ p.1 ∧
        p.2 = { type := "DISCONNECTED", id := "B", to_ := none })) = true :=
  List.all_eq_true.mpr fun p hp => decide_eq_true
    ((disconnected_not_before_deadline "B" 5 5 (fun e c => c.handleEvent e) 0 0 []
      [.update 600, .fireTimer 0 1100] "A" 100 rfl (by decide)).2.1 p hp)

/-! ## The scan -/

theorem foldl_range_induct {σ : Type} (f : σ → Nat → σ) (P : Nat → σ → Prop) (n : Nat) (s : σ)
    (h0 : P 0 s) (hstep : ∀ k s, k < n → P k s → P (k + 1) (f s k)) :
    P n ((List.range n).foldl f s) := by
  have key : ∀ m, m ≤ n → P m ((List.range m).foldl f s) := by
    intro m
    induction m with
    | zero => intro _; exact h0
    | succ m ih =>
      intro hm
      rw [List.range_succ, List.foldl_append]
      exact hstep m _ hm (ih (Nat.le_of_succ_le hm))
  exact key n le_rfl

theorem frame_refl (s : Simulation) : s.Frame s := ⟨rfl, rfl⟩

theorem frame_trans {s₀ s₁ s₂ : Simulation} (h₁ : s₀.Frame s₁) (h₂ : s₁.Frame s₂) :
    s₀.Frame s₂ := ⟨h₂.1.trans h₁.1, h₂.2.trans h₁.2⟩

theorem frame_length {s₀ s : Simulation} (h : s₀.Frame s) :
    s.agents.length = s₀.agents.length := by
  have := congrArg List.length h.2
  simpa using this

theorem frame_get {s₀ s : Simulation} (h : s₀.Frame s) (i : Nat) :
    (s.agents[i]?).map Agent.core = (s₀.agents[i]?).map Agent.core := by
  rw [← List.getElem?_map, ← List.getElem?_map, h.2]

theorem frame_get_some {s₀ s : Simulation} (h : s₀.Frame s) {i : Nat} {a₀ : Agent}
    (h₀ : s₀.agents[i]? = some a₀) : ∃ a, s.agents[i]? = some a ∧ a.core = a₀.core := by
  have := frame_get h i
  rw [h₀] at this
  cases ha : s.agents[i]? with
  | none => rw [ha] at this; cases this
  | some a =>
    rw [ha] at this
    exact ⟨a, rfl, Option.some.inj this⟩

theorem frame_get_none {s₀ s : Simulation} (h : s₀.Frame s) {i : Nat}
    (h₀ : s₀.agents[i]? = none) : s.agents[i]? = none := by
  have := frame_get h i
  rw [h₀] at this
  cases ha : s.agents[i]? with
  | none => rfl
  | some a => rw [ha] at this; cases this

theorem close_congr {s₀ s : Simulation} {a b a₀ b₀ : Agent}
    (hr : s.proximityRadius = s₀.proximityRadius) (ha : a.core = a₀.core)
    (hb : b.core = b₀.core) : s.arePhysicallyClose a b ↔ s₀.arePhysicallyClose a₀ b₀ := by
  simp only [Agent.core, Prod.mk.injEq] at ha hb
  rw [arePhysicallyClose_iff, arePhysicallyClose_iff, hr, ha.2.1, ha.2.2.1, hb.2.1, hb.2.2.1]

theorem reach_congr {s₀ s : Simulation} (h : s₀.Frame s) (i j : Nat) :
    s.reach i j = s₀.reach i j := by
  unfold Simulation.reach
  cases hi : s₀.agents[i]? with
  | none => rw [frame_get_none h hi]
  | some e₀ =>
    obtain ⟨e, he, hec⟩ := frame_get_some h hi
    rw [he]
    cases hj : s₀.agents[j]? with
    | none => rw [frame_get_none h hj]
    | some r₀ =>
      obtain ⟨r, hr, hrc⟩ := frame_get_some h hj
      rw [hr]
      have hst : r.state = r₀.state := by
        simp only [Agent.core, Prod.mk.injEq] at hrc
        exact hrc.2.2.2.1
      simp only [hst, close_congr h.1 hec hrc]

theorem emitting_congr {s₀ s : Simulation} (h : s₀.Frame s) (i : Nat) :
    s.emitting i = s₀.emitting i := by
  unfold Simulation.emitting
  cases hi : s₀.agents[i]? with
  | none => rw [frame_get_none h hi]
  | some e₀ =>
    obtain ⟨e, he, hec⟩ := frame_get_some h hi
    rw [he]
    simp only [Agent.core, Prod.mk.injEq] at hec
    simp only [hec.2.2.2.1]

theorem receiveSignal_core (a : Agent) (emitterId : String) (now : ℚ) :
    (a.receiveSignal emitterId now).1.core = a.core := by
  unfold Agent.receiveSignal
  split <;> rfl

theorem signal_of_not_reach (s : Simulation) (now : ℚ) (i j : Nat) (h : s.reach i j = false) :
    s.signal now i j = s := by
  unfold Simulation.reach at h
  unfold Simulation.signal
  split
  · next e r he hr =>
    rw [he, hr] at h
    simp only [decide_eq_false_iff_not] at h
    rw [if_neg h]
  · rfl

theorem signal_of_reach (s : Simulation) (now : ℚ) (i j : Nat) (h : s.reach i j = true) :
    ∃ e r, s.agents[i]? = some e ∧ s.agents[j]? = some r ∧ j ≠ i ∧
      s.signal now i j =
        { s with
          agents := s.agents.set j (r.receiveSignal e.id now).1,
          controller := (r.receiveSignal e.id now).2.foldl (fun c ev => r.onEvent ev c) s.controller,
          trace := s.trace ++ (r.receiveSignal e.id now).2,
          calls := s.calls ++ [{ emitter := i, receiver := j, emitterId := e.id }] } := by
  unfold Simulation.reach at h
  cases he : s.agents[i]? with
  | none => rw [he] at h; cases h
  | some e =>
    cases hr : s.agents[j]? with
    | none => rw [he, hr] at h; cases h
    | some r =>
      rw [he, hr] at h
      simp only [decide_eq_true_eq] at h
      refine ⟨e, r, rfl, rfl, h.1, ?_⟩
      simp only [Simulation.signal, he, hr]
      rw [if_pos h]

theorem set_eq_self {α : Type} (l : List α) (j : Nat) (v : α) (h : l[j]? = some v) :
    l.set j v = l := by
  apply List.ext_getElem?
  intro k
  by_cases hk : j = k
  · subst hk
    have hlt : j < l.length := by
      by_contra hge
      rw [List.getElem?_eq_none (Nat.le_of_not_lt hge)] at h
      cases h
    rw [List.getElem?_set, if_pos rfl, if_pos hlt, h]
  · rw [List.getElem?_set_ne hk]

theorem signal_frame (s : Simulation) (now : ℚ) (i j : Nat) : s.Frame (s.signal now i j) := by
  cases h : s.reach i j with
  | false => rw [signal_of_not_reach s now i j h]; exact frame_refl s
  | true =>
    obtain ⟨e, r, _, hr, _, hs⟩ := signal_of_reach s now i j h
    rw [hs]
    refine ⟨rfl, ?_⟩
    simp only [List.map_set, receiveSignal_core]
    apply set_eq_self
    rw [List.getElem?_map, hr]
    rfl

/-- The call that the scan records for emitter index `i` and receiver index `j`. -/
theorem signal_calls (s : Simulation) (now : ℚ) (i j : Nat) :
    (s.signal now i j).calls =
      s.calls ++ (if s.reach i j then
        [{ emitter := i, receiver := j, emitterId := ((s.agents[i]?).map Agent.id).getD "" }]
      else []) := by
  cases h : s.reach i j with
  | false => rw [signal_of_not_reach s now i j h]; simp
  | true =>
    obtain ⟨e, r, he, _, _, hs⟩ := signal_of_reach s now i j h
    rw [hs, he]
    simp

theorem frame_id {s₀ s : Simulation} (h : s₀.Frame s) (i : Nat) :
    (s.agents[i]?).map Agent.id = (s₀.agents[i]?).map Agent.id := by
  have := congrArg (Option.map Prod.fst) (frame_get h i)
  simpa [Option.map_map, Function.comp_def, Agent.core] using this

theorem inner_calls (s₀ : Simulation) (now : ℚ) (i k : Nat) (s : Simulation) (h : s₀.Frame s) :
    s₀.Frame ((List.range k).foldl (fun s j => s.signal now i j) s) ∧
    ((List.range k).foldl (fun s j => s.signal now i j) s).calls =
      s.calls ++ ((List.range k).filter fun j => s₀.reach i j).map fun j =>
        { emitter := i, receiver := j, emitterId := ((s₀.agents[i]?).map Agent.id).getD "" } := by
  refine foldl_range_induct (fun s j => s.signal now i j)
    (fun k t => s₀.Frame t ∧ t.calls =
      s.calls ++ ((List.range k).filter fun j => s₀.reach i j).map fun j =>
        { emitter := i, receiver := j, emitterId := ((s₀.agents[i]?).map Agent.id).getD "" })
    k s ⟨h, by simp⟩ ?_
  rintro m t - ⟨hF, hc⟩
  refine ⟨frame_trans hF (signal_frame t now i m), ?_⟩
  rw [signal_calls, hc, reach_congr hF, frame_id hF, List.range_succ, List.filter_append,
    List.map_append, List.append_assoc]
  congr 1
  congr 1
  cases hm : s₀.reach i m <;> simp [hm]

theorem emit_calls (s₀ : Simulation) (now : ℚ) (i : Nat) (s : Simulation) (h : s₀.Frame s) :
    s₀.Frame (s.emit now i) ∧
    (s.emit now i).calls =
      s.calls ++ (if s₀.emitting i then
        ((List.range s₀.agents.length).filter fun j => s₀.reach i j).map fun j =>
          { emitter := i, receiver := j, emitterId := ((s₀.agents[i]?).map Agent.id).getD "" }
      else []) := by
  have hem := emitting_congr h i
  unfold Simulation.emit
  cases hi : s.agents[i]? with
  | none =>
    have hf : s.emitting i = false := by simp [Simulation.emitting, hi]
    rw [← hem, hf]
    exact ⟨h, by simp⟩
  | some e =>
    have hd : s.emitting i = decide (e.state = "E") := by simp [Simulation.emitting, hi]
    simp only
    by_cases hE : e.state = "E"
    · rw [if_pos hE, ← hem, hd, decide_eq_true hE, if_pos rfl, frame_length h]
      exact inner_calls s₀ now i _ s h
    · rw [if_neg hE, ← hem, hd, decide_eq_false hE]
      exact ⟨h, by simp⟩

theorem scan_calls (s : Simulation) (now : ℚ) :
    s.Frame (s.scan now) ∧
    (s.scan now).calls =
      s.calls ++ (List.range s.agents.length).flatMap fun i =>
        if s.emitting i then
          ((List.range s.agents.length).filter fun j => s.reach i j).map fun j =>
            { emitter := i, receiver := j, emitterId := ((s.agents[i]?).map Agent.id).getD "" }
        else [] := by
  unfold Simulation.scan
  refine foldl_range_induct (fun t i => t.emit now i)
    (fun k t => s.Frame t ∧ t.calls =
      s.calls ++ (List.range k).flatMap fun i =>
        if s.emitting i then
          ((List.range s.agents.length).filter fun j => s.reach i j).map fun j =>
            { emitter := i, receiver := j, emitterId := ((s.agents[i]?).map Agent.id).getD "" }
        else [])
    s.agents.length s ⟨frame_refl s, by simp⟩ ?_
  rintro m t - ⟨hF, hc⟩
  obtain ⟨hF', hc'⟩ := emit_calls s now m t hF
  refine ⟨hF', ?_⟩
  rw [hc', hc, List.range_succ, List.flatMap_append, List.append_assoc]
  simp

theorem signalPairs_eq (s : Simulation) :
    s.signalPairs s.agents =
      (List.range s.agents.length).flatMap fun i =>
        if s.emitting i then
          ((List.range s.agents.length).filter fun j => s.reach i j).map fun j =>
            { emitter := i, receiver := j, emitterId := ((s.agents[i]?).map Agent.id).getD "" }
        else [] := by
  unfold Simulation.signalPairs
  congr 1
  funext i
  unfold Simulation.emitting Simulation.reach
  cases hi : s.agents[i]? with
  | none => simp
  | some e =>
    by_cases hE : e.state = "E"
    · simp only [decide_eq_true hE, if_true]
      congr 1
      congr 1
      funext j
      cases s.agents[j]? with
      | none => rfl
      | some r =>
        exact decide_eq_decide.mpr
          ⟨fun h => ⟨h.2.2.1, h.2.1, h.2.2.2⟩, fun h => ⟨hE, h.2.1, h.1, h.2.2⟩⟩
    · simp only [decide_eq_false hE]
      simp only [Bool.false_eq_true, if_false, List.map_eq_nil_iff, List.filter_eq_nil_iff]
      intro j _
      cases s.agents[j]? with
      | none => simp
      | some r => simp [hE]

theorem mem_signalPairs (s : Simulation) (agents : List Agent) (c : Call) :
    c ∈ s.signalPairs agents ↔
      ∃ e r, agents[c.emitter]? = some e ∧ agents[c.receiver]? = some r ∧ e.state = "E" ∧
        r.state = "R" ∧ c.receiver ≠ c.emitter ∧ s.arePhysicallyClose e r ∧ c.emitterId = e.id := by
  unfold Simulation.signalPairs
  simp only [List.mem_flatMap, List.mem_map, List.mem_filter, List.mem_range]
  constructor
  · rintro ⟨i, -, j, ⟨-, hj⟩, rfl⟩
    cases hi : agents[i]? with
    | none => rw [hi] at hj; cases hj
    | some e =>
      cases hr : agents[j]? with
      | none => rw [hi, hr] at hj; cases hj
      | some r =>
        rw [hi, hr] at hj
        simp only [decide_eq_true_eq] at hj
        exact ⟨e, r, rfl, rfl, hj.1, hj.2.1, hj.2.2.1, hj.2.2.2, rfl⟩
  · rintro ⟨e, r, he, hr, hE, hR, hne, hcl, hid⟩
    have hi : c.emitter < agents.length := by
      by_contra hge
      rw [List.getElem?_eq_none (Nat.le_of_not_lt hge)] at he
      cases he
    have hj : c.receiver < agents.length := by
      by_contra hge
      rw [List.getElem?_eq_none (Nat.le_of_not_lt hge)] at hr
      cases hr
    refine ⟨c.emitter, hi, c.receiver, ⟨hj, ?_⟩, ?_⟩
    · rw [he, hr]
      exact decide_eq_true ⟨hE, hR, hne, hcl⟩
    · rw [he]
      cases c
      simp only [Option.map_some', Option.getD_some] at hid ⊢
      rw [hid]

theorem signalPairs_sorted (s : Simulation) (agents : List Agent) :
    (s.signalPairs agents).Pairwise fun c d =>
      c.emitter < d.emitter ∨ (c.emitter = d.emitter ∧ c.receiver < d.receiver) := by
  unfold Simulation.signalPairs
  rw [List.pairwise_flatMap]
  constructor
  · intro i _
    rw [List.pairwise_map]
    exact ((List.pairwise_lt_range agents.length).filter _).imp fun h => Or.inr ⟨rfl, h⟩
  · refine (List.pairwise_lt_range agents.length).imp ?_
    intro i i' hlt c hc d hd
    simp only [List.mem_map] at hc hd
    obtain ⟨_, _, rfl⟩ := hc
    obtain ⟨_, _, rfl⟩ := hd
    exact Or.inl hlt

/-- C1: a tick updates every agent and only then scans. The `receiveSignal` calls it
makes are, in order of emitter index and then receiver index, exactly the pairs in which,
after all the updates of the tick, the emitter is in state "E", the receiver in state "R",
the receiver is not the emitter and the two are close; each call passes the emitter's
id. -/
theorem tick_calls (s : Simulation) (now : ℚ) :
    (s.tick now).calls = s.calls ++ s.signalPairs (s.agents.map fun a => a.update now) ∧
    (∀ c, c ∈ s.signalPairs (s.agents.map fun a => a.update now) ↔
      ∃ e r, (s.agents.map fun a => a.update now)[c.emitter]? = some e ∧
        (s.agents.map fun a => a.update now)[c.receiver]? = some r ∧
        e.state = "E" ∧ r.state = "R" ∧ c.receiver ≠ c.emitter ∧
        s.arePhysicallyClose e r ∧ c.emitterId = e.id) ∧
    (s.signalPairs (s.agents.map fun a => a.update now)).Pairwise fun c d =>
      c.emitter < d.emitter ∨ (c.emitter = d.emitter ∧ c.receiver < d.receiver) := by
  refine ⟨?_, fun c => mem_signalPairs s _ c, signalPairs_sorted s _⟩
  unfold Simulation.tick
  rw [(scan_calls _ now).2, ← signalPairs_eq]
  rfl

theorem getElem?_lt {α : Type} {l : List α} {i : Nat} {a : α} (h : l[i]? = some a) :
    i < l.length := by
  by_contra hge
  rw [List.getElem?_eq_none (Nat.le_of_not_lt hge)] at h
  cases h

theorem nodup_id_ne {agents : List Agent} (hn : (agents.map Agent.id).Nodup) {i j : Nat}
    {e r : Agent} (he : agents[i]? = some e) (hr : agents[j]? = some r) (hne : j ≠ i) :
    r.id ≠ e.id := by
  intro hid
  apply hne
  have hj : j < (agents.map Agent.id).length := by
    rw [List.length_map]
    exact getElem?_lt hr
  apply List.getElem?_inj hj hn
  rw [List.getElem?_map, List.getElem?_map, he, hr, Option.map_some', Option.map_some', hid]

theorem receiveSignal_events (a : Agent) (emitterId : String) (now : ℚ) :
    ∀ ev ∈ (a.receiveSignal emitterId now).2,
      ev = { type := "CONNECTED", id := a.id, to_ := some emitterId } := by
  intro ev hev
  unfold Agent.receiveSignal at hev
  split at hev
  · exact List.mem_singleton.mp hev
  · cases hev

theorem core_id {a b : Agent} (h : a.core = b.core) : a.id = b.id := by
  simp only [Agent.core, Prod.mk.injEq] at h
  exact h.1

theorem signal_trace (s₀ s : Simulation) (now : ℚ) (i j : Nat) (h : s₀.Frame s) :
    ∃ evs, (s.signal now i j).trace = s.trace ++ evs ∧
      ∀ ev ∈ evs, ∃ e r, s₀.agents[i]? = some e ∧ s₀.agents[j]? = some r ∧ j ≠ i ∧
        ev = { type := "CONNECTED", id := r.id, to_ := some e.id } := by
  cases hr : s.reach i j with
  | false =>
    rw [signal_of_not_reach s now i j hr]
    exact ⟨[], by simp, fun ev hev => by cases hev⟩
  | true =>
    obtain ⟨e, r, he, hrr, hne, hs⟩ := signal_of_reach s now i j hr
    rw [hs]
    refine ⟨_, rfl, ?_⟩
    intro ev hev
    have hev' := receiveSignal_events r e.id now ev hev
    cases he₀ : s₀.agents[i]? with
    | none => rw [frame_get_none h he₀] at he; cases he
    | some e₀ =>
      cases hr₀ : s₀.agents[j]? with
      | none => rw [frame_get_none h hr₀] at hrr; cases hrr
      | some r₀ =>
        obtain ⟨e', he', hec⟩ := frame_get_some h he₀
        obtain ⟨r', hr', hrc⟩ := frame_get_some h hr₀
        rw [he] at he'
        rw [hrr] at hr'
        cases he'
        cases hr'
        refine ⟨e₀, r₀, rfl, rfl, hne, ?_⟩
        rw [hev', core_id hec, core_id hrc]

theorem emit_cases (s : Simulation) (now : ℚ) (i : Nat) :
    s.emit now i = s ∨
      s.emit now i = (List.range s.agents.length).foldl (fun s j => s.signal now i j) s := by
  unfold Simulation.emit
  cases s.agents[i]? with
  | none => exact Or.inl rfl
  | some e =>
    by_cases hE : e.state = "E"
    · right; simp only [if_pos hE]
    · left; simp only [if_neg hE]

theorem scan_trace (s : Simulation) (now : ℚ) :
    ∃ evs, (s.scan now).trace = s.trace ++ evs ∧
      ∀ ev ∈ evs, s.Connects ev := by
  have hinner : ∀ (i k : Nat) (t : Simulation),
      (s.Frame t ∧ ∃ evs, t.trace = s.trace ++ evs ∧
        ∀ ev ∈ evs, s.Connects ev) →
      (s.Frame ((List.range k).foldl (fun t j => t.signal now i j) t) ∧
        ∃ evs, ((List.range k).foldl (fun t j => t.signal now i j) t).trace = s.trace ++ evs ∧
        ∀ ev ∈ evs, s.Connects ev) := by
    intro i k t ht
    refine foldl_range_induct (fun t j => t.signal now i j)
      (fun _ t => s.Frame t ∧ ∃ evs, t.trace = s.trace ++ evs ∧
        ∀ ev ∈ evs, s.Connects ev) k t ht ?_
    rintro m u - ⟨hF, evs, htr, hprov⟩
    obtain ⟨evs', htr', hprov'⟩ := signal_trace s u now i m hF
    refine ⟨frame_trans hF (signal_frame u now i m), evs ++ evs', ?_, ?_⟩
    · rw [htr', htr, List.append_assoc]
    · intro ev hev
      rcases List.mem_append.mp hev with hev | hev
      · exact hprov ev hev
      · obtain ⟨e, r, h1, h2, h3, h4⟩ := hprov' ev hev
        exact ⟨i, m, e, r, h1, h2, h3, h4⟩
  have houter := foldl_range_induct (fun t i => t.emit now i)
      (fun _ t => s.Frame t ∧ ∃ evs, t.trace = s.trace ++ evs ∧
        ∀ ev ∈ evs, s.Connects ev) s.agents.length s
      ⟨frame_refl s, [], by simp, fun ev hev => by cases hev⟩ (by
        rintro m u - hu
        rcases emit_cases u now m with h | h
        · simp only [h]
          exact hu
        · simp only [h]
          exact hinner m _ u hu)
  exact houter.2

/-- C9: in a tick no agent's `receiveSignal` is called with the agent itself as emitter:
every call made in the tick has a receiver index different from its emitter index. When
the ids of the agents are pairwise distinct, every event of the tick is a CONNECTED event
whose `to` is not its own `id`. -/
theorem tick_no_self_signal (s : Simulation) (now : ℚ) :
    ∃ calls events, (s.tick now).calls = s.calls ++ calls ∧
      (s.tick now).trace = s.trace ++ events ∧
      (∀ c ∈ calls, c.receiver ≠ c.emitter) ∧
      ((s.agents.map Agent.id).Nodup →
        ∀ ev ∈ events, ev.type = "CONNECTED" ∧ ev.to_ ≠ some ev.id) := by
  obtain ⟨evs, htr, hprov⟩ :=
    scan_trace { s with agents := s.agents.map fun a => a.update now } now
  refine ⟨s.signalPairs (s.agents.map fun a => a.update now), evs, ?_, htr, ?_, ?_⟩
  · unfold Simulation.tick
    rw [(scan_calls _ now).2, ← signalPairs_eq]
    rfl
  · intro c hc
    obtain ⟨_, _, _, _, _, _, hne, _⟩ := (mem_signalPairs s _ c).mp hc
    exact hne
  · intro hn ev hev
    obtain ⟨i, j, e, r, he, hr, hne, rfl⟩ := hprov ev hev
    simp only at he hr
    have hn' : ((s.agents.map fun a => a.update now).map Agent.id).Nodup := by
      have : (s.agents.map fun a => a.update now).map Agent.id = s.agents.map Agent.id := by
        rw [List.map_map]
        apply List.map_congr_left
        intro a _
        exact (update_frame a now).1
      rw [this]
      exact hn
    refine ⟨rfl, ?_⟩
    intro hc
    exact nodup_id_ne hn' he hr hne (Option.some.inj hc).symm

/-- Witness of C9 on the demo, whose three ids are distinct, ticking at time 500. -/
theorem tick_no_self_signal_witness :
    ∃ calls events, ((demo 0 (1 / 2) 0 0).tick 500).calls = (demo 0 (1 / 2) 0 0).calls ++ calls ∧
      ((demo 0 (1 / 2) 0 0).tick 500).trace = (demo 0 (1 / 2) 0 0).trace ++ events ∧
      (∀ c ∈ calls, c.receiver ≠ c.emitter) ∧
      ∀ ev ∈ events, ev.type = "CONNECTED" ∧ ev.to_ ≠ some ev.id :=
  match tick_no_self_signal (demo 0 (1 / 2) 0 0) 500 with
  | ⟨calls, events, h1, h2, h3, h4⟩ => ⟨calls, events, h1, h2, h3, h4 (by decide)⟩

/-! ## Which emitter the controller records -/

theorem getElem?_set_at {α : Type} {l : List α} {j : Nat} {a : α} (h : l[j]? = some a)
    (v : α) : (l.set j v)[j]? = some v := by
  rw [List.getElem?_set, if_pos rfl, if_pos (getElem?_lt h)]

theorem core_onEvent {a b : Agent} (h : a.core = b.core) : a.onEvent = b.onEvent := by
  simp only [Agent.core, Prod.mk.injEq] at h
  exact h.2.2.2.2

theorem frame_back {s₀ s : Simulation} (h : s₀.Frame s) {i : Nat} {a : Agent}
    (ha : s.agents[i]? = some a) : ∃ a₀, s₀.agents[i]? = some a₀ ∧ a.core = a₀.core := by
  cases h₀ : s₀.agents[i]? with
  | none => rw [frame_get_none h h₀] at ha; cases ha
  | some a₀ =>
    obtain ⟨a', ha', hc⟩ := frame_get_some h h₀
    rw [ha] at ha'
    cases ha'
    exact ⟨a₀, rfl, hc⟩

theorem handleEvent_other (c : Controller) (ev : Event) (k : String) (h : k ≠ ev.id) :
    (c.handleEvent ev).connections k = c.connections k := by
  unfold Controller.handleEvent
  split
  · split
    · rfl
    · simp only [if_neg h]
  · split
    · simp only [if_neg h]
    · rfl

theorem signal_linked {s₀ s : Simulation} (hF : s₀.Frame s) (hn : (s₀.agents.map Agent.id).Nodup)
    (hw : s₀.Wired) (now : ℚ) (i j : Nat) {k : Nat} {r₀ : Agent} (hr₀ : s₀.agents[k]? = some r₀)
    (eid : String) (h : s.Linked k r₀.id eid) : (s.signal now i j).Linked k r₀.id eid := by
  cases hre : s.reach i j with
  | false => rw [signal_of_not_reach s now i j hre]; exact h
  | true =>
    obtain ⟨e, r, he, hr, hne, hs⟩ := signal_of_reach s now i j hre
    obtain ⟨⟨a, ha, hac⟩, hcon⟩ := h
    rw [hs]
    by_cases hjk : j = k
    · subst hjk
      have har : a = r := Option.some.inj (ha.symm.trans hr)
      rw [har] at hac
      rw [receiveSignal_of_connected r e.id now hac]
      exact ⟨⟨r, getElem?_set_at hr r, hac⟩, hcon⟩
    · refine ⟨⟨a, ?_, hac⟩, ?_⟩
      · simp only [List.getElem?_set_ne hjk]
        exact ha
      · obtain ⟨r', hr', hrc⟩ := frame_back hF hr
        have hid : r₀.id ≠ r.id := by
          rw [core_id hrc]
          exact nodup_id_ne hn hr' hr₀ (fun h => hjk h.symm)
        have hon : r.onEvent = fun ev c => c.handleEvent ev := by
          rw [core_onEvent hrc]
          exact hw r' (List.getElem?_mem hr')
        simp only [hon]
        unfold Agent.receiveSignal
        split
        · simp only [List.foldl_cons, List.foldl_nil]
          rw [handleEvent_other _ _ _ hid]
          exact hcon
        · exact hcon

theorem signal_waiting {s₀ s : Simulation} (hF : s₀.Frame s) (now : ℚ) (i j k : Nat)
    (h : s.Waiting k) (hno : j ≠ k ∨ s₀.reach i k = false) : (s.signal now i j).Waiting k := by
  cases hre : s.reach i j with
  | false => rw [signal_of_not_reach s now i j hre]; exact h
  | true =>
    obtain ⟨e, r, he, hr, hne, hs⟩ := signal_of_reach s now i j hre
    have hjk : j ≠ k := by
      rcases hno with hno | hno
      · exact hno
      · intro hjk
        subst hjk
        rw [reach_congr hF] at hre
        rw [hre] at hno
        cases hno
    obtain ⟨a, ha, hac⟩ := h
    rw [hs]
    refine ⟨a, ?_, hac⟩
    simp only [List.getElem?_set_ne hjk]
    exact ha

theorem signal_links {s₀ s : Simulation} (hF : s₀.Frame s) (hw : s₀.Wired) (now : ℚ)
    (i k : Nat) {e₀ r₀ : Agent} (he₀ : s₀.agents[i]? = some e₀) (hr₀ : s₀.agents[k]? = some r₀)
    (hre : s₀.reach i k = true) (hp : r₀.id ≠ "__proto__") (h : s.Waiting k) :
    (s.signal now i k).Linked k r₀.id e₀.id := by
  rw [← reach_congr hF] at hre
  obtain ⟨e, r, he, hr, hne, hs⟩ := signal_of_reach s now i k hre
  obtain ⟨a, ha, hac⟩ := h
  have har : a = r := Option.some.inj (ha.symm.trans hr)
  rw [har] at hac
  obtain ⟨e', he', hec⟩ := frame_back hF he
  obtain ⟨r', hr', hrc⟩ := frame_back hF hr
  have hee : e' = e₀ := Option.some.inj (he'.symm.trans he₀)
  have hrr : r' = r₀ := Option.some.inj (hr'.symm.trans hr₀)
  rw [hee] at hec
  rw [hrr] at hrc
  have hon : r.onEvent = fun ev c => c.handleEvent ev := by
    rw [core_onEvent hrc]
    exact hw r₀ (List.getElem?_mem hr₀)
  rw [hs, receiveSignal_of_not_connected r e.id now hac]
  refine ⟨⟨Agent.scheduleDisconnection { r with connected := true } now,
    getElem?_set_at hr _, rfl⟩, ?_⟩
  · have hp' : ¬ (r₀.id = "__proto__" ∧ s.controller.connections "__proto__" = none) :=
      fun hc => hp hc.1
    simp only [hon, List.foldl_cons, List.foldl_nil, Controller.handleEvent, if_true,
      core_id hrc, core_id hec, if_neg hp']

theorem emit_eq (s : Simulation) (now : ℚ) (i : Nat) :
    s.emit now i =
      if s.emitting i then (List.range s.agents.length).foldl (fun s j => s.signal now i j) s
      else s := by
  unfold Simulation.emit Simulation.emitting
  cases s.agents[i]? with
  | none => rfl
  | some e =>
    by_cases hE : e.state = "E"
    · simp only [if_pos hE, decide_eq_true hE, if_true]
    · simp only [if_neg hE, decide_eq_false hE, Bool.false_eq_true, if_false]

theorem inner_linked {s₀ s : Simulation} (hF : s₀.Frame s)
    (hn : (s₀.agents.map Agent.id).Nodup) (hw : s₀.Wired) (now : ℚ) (i n : Nat) {k : Nat}
    {r₀ : Agent} (hr₀ : s₀.agents[k]? = some r₀) (eid : String) (h : s.Linked k r₀.id eid) :
    s₀.Frame ((List.range n).foldl (fun s j => s.signal now i j) s) ∧
      ((List.range n).foldl (fun s j => s.signal now i j) s).Linked k r₀.id eid := by
  refine foldl_range_induct (fun s j => s.signal now i j)
    (fun _ t => s₀.Frame t ∧ t.Linked k r₀.id eid) n s ⟨hF, h⟩ ?_
  rintro m t - ⟨hFt, ht⟩
  exact ⟨frame_trans hFt (signal_frame t now i m), signal_linked hFt hn hw now i m hr₀ eid ht⟩

theorem inner_waiting {s₀ s : Simulation} (hF : s₀.Frame s) (now : ℚ) (i n k : Nat)
    (hno : s₀.reach i k = false) (h : s.Waiting k) :
    s₀.Frame ((List.range n).foldl (fun s j => s.signal now i j) s) ∧
      ((List.range n).foldl (fun s j => s.signal now i j) s).Waiting k := by
  refine foldl_range_induct (fun s j => s.signal now i j)
    (fun _ t => s₀.Frame t ∧ t.Waiting k) n s ⟨hF, h⟩ ?_
  rintro m t - ⟨hFt, ht⟩
  exact ⟨frame_trans hFt (signal_frame t now i m), signal_waiting hFt now i m k ht (Or.inr hno)⟩

theorem inner_links {s₀ s : Simulation} (hF : s₀.Frame s)
    (hn : (s₀.agents.map Agent.id).Nodup) (hw : s₀.Wired) (now : ℚ) (i n k : Nat)
    {e₀ r₀ : Agent} (he₀ : s₀.agents[i]? = some e₀) (hr₀ : s₀.agents[k]? = some r₀)
    (hre : s₀.reach i k = true) (hp : r₀.id ≠ "__proto__") (hk : k < n) (h : s.Waiting k) :
    s₀.Frame ((List.range n).foldl (fun s j => s.signal now i j) s) ∧
      ((List.range n).foldl (fun s j => s.signal now i j) s).Linked k r₀.id e₀.id := by
  have key := foldl_range_induct (fun s j => s.signal now i j)
    (fun m t => s₀.Frame t ∧ (if m ≤ k then t.Waiting k else t.Linked k r₀.id e₀.id)) n s
    ⟨hF, by rw [if_pos (Nat.zero_le k)]; exact h⟩ (by
      rintro m t - ⟨hFt, ht⟩
      refine ⟨frame_trans hFt (signal_frame t now i m), ?_⟩
      by_cases hmk : m + 1 ≤ k
      · rw [if_pos hmk]
        rw [if_pos (Nat.le_of_succ_le hmk)] at ht
        exact signal_waiting hFt now i m k ht (Or.inl (Nat.ne_of_lt hmk))
      · rw [if_neg hmk]
        by_cases hmk' : m ≤ k
        · rw [if_pos hmk'] at ht
          have hme : m = k := Nat.le_antisymm hmk' (Nat.le_of_lt_succ (Nat.lt_of_not_le hmk))
          subst hme
          exact signal_links hFt hw now i m he₀ hr₀ hre hp ht
        · rw [if_neg hmk'] at ht
          exact signal_linked hFt hn hw now i m hr₀ e₀.id ht)
  beta_reduce at key
  rw [if_neg (Nat.not_le_of_lt hk)] at key
  exact key

/-- The scan records for a waiting receiver the first emitter that reaches it. -/
theorem scan_first_writer (s : Simulation) (now : ℚ) (i k : Nat) (e r : Agent)
    (hn : (s.agents.map Agent.id).Nodup) (hw : s.Wired)
    (he : s.agents[i]? = some e) (hr : s.agents[k]? = some r) (hnc : r.connected = false)
    (hp : r.id ≠ "__proto__")
    (hem : s.emitting i = true) (hre : s.reach i k = true)
    (hfirst : ∀ i', i' < i → s.emitting i' = true → s.reach i' k = false) :
    (s.scan now).controller.connections r.id = some (some e.id) := by
  have hlen : ∀ t, s.Frame t → t.agents.length = s.agents.length := fun t h => frame_length h
  have key := foldl_range_induct (fun t i => t.emit now i)
    (fun m t => s.Frame t ∧ (if m ≤ i then t.Waiting k else t.Linked k r.id e.id))
    s.agents.length s
    ⟨frame_refl s, by rw [if_pos (Nat.zero_le i)]; exact ⟨r, hr, hnc⟩⟩ (by
      rintro m t - ⟨hFt, ht⟩
      simp only [emit_eq, emitting_congr hFt, hlen t hFt]
      by_cases hEm : s.emitting m = true
      · rw [if_pos hEm]
        by_cases hmi : m + 1 ≤ i
        · rw [if_pos hmi]
          rw [if_pos (Nat.le_of_succ_le hmi)] at ht
          exact inner_waiting hFt now m _ k (hfirst m hmi hEm) ht
        · rw [if_neg hmi]
          by_cases hmi' : m ≤ i
          · rw [if_pos hmi'] at ht
            have hme : m = i := Nat.le_antisymm hmi' (Nat.le_of_lt_succ (Nat.lt_of_not_le hmi))
            subst hme
            exact inner_links hFt hn hw now m _ k he hr hre hp (getElem?_lt hr) ht
          · rw [if_neg hmi'] at ht
            exact inner_linked hFt hn hw now m _ hr e.id ht
      · rw [if_neg hEm]
        refine ⟨hFt, ?_⟩
        by_cases hmi : m + 1 ≤ i
        · rw [if_pos hmi]
          rw [if_pos (Nat.le_of_succ_le hmi)] at ht
          exact ht
        · rw [if_neg hmi]
          by_cases hmi' : m ≤ i
          · have hme : m = i := Nat.le_antisymm hmi' (Nat.le_of_lt_succ (Nat.lt_of_not_le hmi))
            subst hme
            exact absurd hem hEm
          · rw [if_neg hmi'] at ht
            exact ht)
  unfold Simulation.scan
  beta_reduce at key
  rw [if_neg (Nat.not_le_of_lt (getElem?_lt he))] at key
  exact key.2.2

theorem range_three : List.range 3 = [0, 1, 2] := by decide

theorem update_onEvent (a : Agent) (now : ℚ) : (a.update now).onEvent = a.onEvent := by
  unfold Agent.update
  split <;> rfl

/-- C10 against the code: in the demo with B switching after 500 and A, C after 1000, a
tick at time 500 leaves A and C emitting and B receiving, not connected, in range of
both. C is the last in-range emitter in agent-list order, and the controller records A
for B, not C. -/
theorem last_writer_counterexample :
    (((demo (1 / 2) 0 (1 / 2) 0).agents.map fun a => a.update 500).map fun a =>
      (a.id, a.state, a.connected)) = [("A", "E", false), ("B", "R", false), ("C", "E", false)] ∧
    Simulation.reach { demo (1 / 2) 0 (1 / 2) 0 with
      agents := (demo (1 / 2) 0 (1 / 2) 0).agents.map fun a => a.update 500 } 0 1 = true ∧
    Simulation.reach { demo (1 / 2) 0 (1 / 2) 0 with
      agents := (demo (1 / 2) 0 (1 / 2) 0).agents.map fun a => a.update 500 } 2 1 = true ∧
    ((demo (1 / 2) 0 (1 / 2) 0).tick 500).controller.connections "B" = some (some "A") ∧
    ¬ ((demo (1 / 2) 0 (1 / 2) 0).tick 500).controller.connections "B" = some (some "C") := by
  have key : ((demo (1 / 2) 0 (1 / 2) 0).tick 500).controller.connections "B"
      = some (some "A") := by
    decide!
  refine ⟨by decide!, by decide!, by decide!, key, ?_⟩
  rw [key]
  decide

/-- C10 as the code has it: when a receiver that is not connected is, after the updates of
the tick, in state "R" and within range of emitting agents, then, the ids being pairwise
distinct, the receiver's id not being "__proto__" and every handler being the controller's
`handleEvent`, the controller maps the receiver's id after the tick to the id of the first
such emitter in agent-list order; emitters later in the list do not change the entry. -/
theorem tick_first_writer_wins (s : Simulation) (now : ℚ) (i k : Nat) (e r : Agent)
    (hn : (s.agents.map Agent.id).Nodup) (hw : s.Wired)
    (he : (s.agents.map fun a => a.update now)[i]? = some e)
    (hr : (s.agents.map fun a => a.update now)[k]? = some r)
    (hnc : r.connected = false) (hp : r.id ≠ "__proto__") (hE : e.state = "E")
    (hR : r.state = "R") (hne : k ≠ i) (hclose : s.arePhysicallyClose e r)
    (hfirst : ∀ i' e', i' < i → (s.agents.map fun a => a.update now)[i']? = some e' →
      ¬ (e'.state = "E" ∧ k ≠ i' ∧ s.arePhysicallyClose e' r)) :
    (s.tick now).controller.connections r.id = some (some e.id) := by
  have hn' : ((s.agents.map fun a => a.update now).map Agent.id).Nodup := by
    have : (s.agents.map fun a => a.update now).map Agent.id = s.agents.map Agent.id := by
      rw [List.map_map]
      apply List.map_congr_left
      intro a _
      exact (update_frame a now).1
    rw [this]
    exact hn
  have hw' : Simulation.Wired { s with agents := s.agents.map fun a => a.update now } := by
    intro a ha
    obtain ⟨b, hb, rfl⟩ := List.mem_map.mp ha
    rw [update_onEvent]
    exact hw b hb
  unfold Simulation.tick
  refine scan_first_writer _ now i k e r hn' hw' he hr hnc hp ?_ ?_ ?_
  · simp only [Simulation.emitting, he, decide_eq_true hE]
  · simp only [Simulation.reach, he, hr]
    exact decide_eq_true ⟨hne, hR, hclose⟩
  · intro i' hi' hem
    simp only [Simulation.emitting] at hem
    simp only [Simulation.reach]
    cases he' : (s.agents.map fun a => a.update now)[i']? with
    | none => rfl
    | some e' =>
      rw [he'] at hem
      simp only [decide_eq_true_eq] at hem
      simp only [hr]
      apply decide_eq_false
      intro hc
      exact hfirst i' e' hi' he' ⟨hem, hc.1, hc.2.2⟩

/-- Witness of the amended C10 on the demo with B switching after 500 and A, C after
1000, ticking at time 500: the controller records A, the first emitter in range of B. -/
theorem tick_first_writer_wins_witness :
    ((demo (1 / 2) 0 (1 / 2) 0).tick 500).controller.connections
        ((Agent.new "B" 5 5 (fun e c => c.handleEvent e) 0 0).update 500).id =
      some (some ((Agent.new "A" 0 0 (fun e c => c.handleEvent e) (1 / 2) 0).update 500).id) :=
  tick_first_writer_wins (demo (1 / 2) 0 (1 / 2) 0) 500 0 1
    ((Agent.new "A" 0 0 (fun e c => c.handleEvent e) (1 / 2) 0).update 500)
    ((Agent.new "B" 5 5 (fun e c => c.handleEvent e) 0 0).update 500)
    (by decide)
    (by simp [Simulation.Wired, demo, Simulation.new, Agent.new])
    rfl rfl
    (by norm_num [Agent.new, Agent.update])
    (by decide!)
    (by norm_num [Agent.new, Agent.update])
    (by norm_num [Agent.new, Agent.update])
    (by decide)
    (by norm_num [arePhysicallyClose_iff, demo, Simulation.new, Agent.new, Agent.update])
    (fun i' _ hi' => absurd hi' (Nat.not_lt_zero i'))

/-! ## The event sink -/

/-- The bookkeeping of `handleEvent`: a CONNECTED{id, to} event whose id is not
"__proto__" binds the key `id` to `to`; it leaves every other key alone; a
DISCONNECTED{id} event removes the key `id` and leaves every other key alone; an event of
any other type changes nothing; and handling an event twice in a row gives the same
controller as handling it once. -/
theorem handleEvent_plain_keys (c : Controller) (event : Event) (id : String)
    (to_ : Option String) :
    (id ≠ "__proto__" →
      (c.handleEvent { type := "CONNECTED", id := id, to_ := to_ }).connections id
        = some to_) ∧
    (∀ k, k ≠ id →
      (c.handleEvent { type := "CONNECTED", id := id, to_ := to_ }).connections k
        = c.connections k) ∧
    (c.handleEvent { type := "DISCONNECTED", id := id, to_ := to_ }).connections id = none ∧
    (∀ k, k ≠ id →
      (c.handleEvent { type := "DISCONNECTED", id := id, to_ := to_ }).connections k
        = c.connections k) ∧
    (event.type ≠ "CONNECTED" → event.type ≠ "DISCONNECTED" → c.handleEvent event = c) ∧
    (c.handleEvent event).handleEvent event = c.handleEvent event := by
  refine ⟨?_, ?_, ?_, ?_, ?_, ?_⟩
  · intro hp
    simp [Controller.handleEvent, hp]
  · intro k hk
    exact handleEvent_other c _ k hk
  · simp [Controller.handleEvent]
  · intro k hk
    exact handleEvent_other c _ k hk
  · intro h1 h2
    simp [Controller.handleEvent, h1, h2]
  · by_cases h1 : event.type = "CONNECTED"
    · by_cases hp : event.id = "__proto__" ∧ c.connections "__proto__" = none
      · have hc : c.handleEvent event = c := by
          simp only [Controller.handleEvent, if_pos h1, if_pos hp]
        rw [hc, hc]
      · have hc : c.handleEvent event =
            { c with
              connections := fun k => if k = event.id then some event.to_ else c.connections k } := by
          simp only [Controller.handleEvent, if_pos h1, if_neg hp]
        rw [hc]
        have hp' : ¬ (event.id = "__proto__" ∧
            (if "__proto__" = event.id then some event.to_ else c.connections "__proto__")
              = none) := by
          rintro ⟨h2, h3⟩
          rw [if_pos h2.symm] at h3
          cases h3
        simp only [Controller.handleEvent, if_pos h1, if_neg hp']
        congr 1
        funext k
        by_cases hk : k = event.id <;> simp [hk]
    · by_cases h2 : event.type = "DISCONNECTED"
      · simp only [Controller.handleEvent, if_neg h1, if_pos h2]
        congr 1
        funext k
        by_cases hk : k = event.id <;> simp [hk]
      · simp only [Controller.handleEvent, if_neg h1, if_neg h2]

/-- C11 on the code: `connections` is a plain object, and the event
CONNECTED{id: "__proto__", to: "A"} handled by a new controller leaves it without an entry
for "__proto__": the controller is unchanged, where the same event with id "B" is
recorded. -/
theorem handleEvent_drops_proto_key :
    (Controller.new.handleEvent
      { type := "CONNECTED", id := "__proto__", to_ := some "A" }).connections "__proto__"
        = none ∧
    Controller.new.handleEvent { type := "CONNECTED", id := "__proto__", to_ := some "A" }
      = Controller.new ∧
    (Controller.new.handleEvent
      { type := "CONNECTED", id := "B", to_ := some "A" }).connections "B" = some (some "A") := by
  refine ⟨by decide, ?_, by decide⟩
  simp [Controller.handleEvent, Controller.new]

/-! ## More on the agent alone -/

/-- C14: in every state a freshly constructed agent reaches through updates, signals and
timer firings, `connected` is true only while a timer set by `scheduleDisconnection` is
pending: a connected agent has exactly one pending timer, the one `timeout` names, and an
agent that is not connected has none. -/
theorem connected_has_pending_timer (id : String) (x y : ℚ)
    (onEvent : Event → Controller → Controller) (random t0 : ℚ) (acts : List Action) :
    (((Agent.new id x y onEvent random t0).run acts).1.connected = true →
      ∃ t, ((Agent.new id x y onEvent random t0).run acts).1.timers = [t] ∧
        ((Agent.new id x y onEvent random t0).run acts).1.timeout = some t.handle) ∧
    (((Agent.new id x y onEvent random t0).run acts).1.connected = false →
      ((Agent.new id x y onEvent random t0).run acts).1.timers = []) := by
  have h := settled_run acts _ (settled_new id x y onEvent random t0)
  constructor
  · intro hc
    rcases h with ⟨hn, _⟩ | ⟨_, ht⟩
    · rw [hc] at hn; cases hn
    · exact ht
  · intro hc
    rcases h with ⟨_, ht⟩ | ⟨hn, _⟩
    · exact ht
    · rw [hc] at hn; cases hn

/-- Witness of C14: agent "B" after a signal from "A" at time 100 and an update at 600 is
connected, with one pending timer. -/
theorem connected_has_pending_timer_witness :
    ∃ t, ((Agent.new "B" 5 5 (fun e c => c.handleEvent e) 0 0).run
        [.receiveSignal "A" 100, .update 600]).1.timers = [t] ∧
      ((Agent.new "B" 5 5 (fun e c => c.handleEvent e) 0 0).run
        [.receiveSignal "A" 100, .update 600]).1.timeout = some t.handle :=
  (connected_has_pending_timer "B" 5 5 (fun e c => c.handleEvent e) 0 0
    [.receiveSignal "A" 100, .update 600]).1 (by decide!)

/-- C16 against the code: an agent with `lastSwitch = 0` and `switchInterval = 1000` is
updated at 999 and then at 1000, one millisecond apart; the first call does not flip, the
second does, so the two calls do not leave the agent as the single call at 999 does. -/
theorem update_twice_counterexample :
    (0 : ℚ) < (Agent.new "A" 0 0 (fun e c => c.handleEvent e) (1 / 2) 0).switchInterval ∧
    (999 : ℚ) ≤ 1000 ∧
    (1000 : ℚ) - 999 < (Agent.new "A" 0 0 (fun e c => c.handleEvent e) (1 / 2) 0).switchInterval ∧
    ((Agent.new "A" 0 0 (fun e c => c.handleEvent e) (1 / 2) 0).update 999).state = "E" ∧
    (((Agent.new "A" 0 0 (fun e c => c.handleEvent e) (1 / 2) 0).update 999).update 1000).state
      = "R" ∧
    ((Agent.new "A" 0 0 (fun e c => c.handleEvent e) (1 / 2) 0).update 999).update 1000 ≠
      (Agent.new "A" 0 0 (fun e c => c.handleEvent e) (1 / 2) 0).update 999 := by
  have h1 : ((Agent.new "A" 0 0 (fun e c => c.handleEvent e) (1 / 2) 0).update 999).state
      = "E" := by decide!
  have h2 : (((Agent.new "A" 0 0 (fun e c => c.handleEvent e) (1 / 2) 0).update 999).update
      1000).state = "R" := by decide!
  refine ⟨by decide!, by decide!, by decide!, h1, h2, ?_⟩
  intro h
  have h3 := congrArg Agent.state h
  rw [h1, h2] at h3
  exact absurd h3 (by decide)

/-- C16 as the code has it: for an agent with `switchInterval > 0` and times
`now <= now'` less than one period apart, when the call at `now` flips, or the period
counted from `lastSwitch` has not elapsed at `now'`, `update` at `now` then at `now'`
leaves the agent as the single call at `now` does; `update` twice at the same time is
`update` once; and if the call at `now` flips, the call at `now'` does not flip again. -/
theorem update_idempotent_within_period (a : Agent) (now now' : ℚ)
    (hP : 0 < a.switchInterval) (hle : now ≤ now') (hlt : now' - now < a.switchInterval) :
    (now - a.lastSwitch ≥ a.switchInterval ∨ now' - a.lastSwitch < a.switchInterval →
      (a.update now).update now' = a.update now) ∧
    (a.update now).update now = a.update now ∧
    ((a.update now).state ≠ a.state →
      ((a.update now).update now').state = (a.update now).state) := by
  have hflip : now - a.lastSwitch ≥ a.switchInterval →
      (a.update now).update now' = a.update now := by
    intro h
    have hu : a.update now =
        { a with state := if a.state = "E" then "R" else "E", lastSwitch := now } := by
      simp only [Agent.update, if_pos h]
    rw [hu]
    have hn : ¬ now' - now ≥ a.switchInterval := not_le.mpr hlt
    simp only [Agent.update, if_neg hn]
  refine ⟨?_, ?_, ?_⟩
  · rintro (h | h)
    · exact hflip h
    · have h0 : ¬ now - a.lastSwitch ≥ a.switchInterval := by
        intro hc
        linarith
      have hu : a.update now = a := by simp only [Agent.update, if_neg h0]
      rw [hu]
      simp only [Agent.update, if_neg (not_le.mpr h)]
  · by_cases h : now - a.lastSwitch ≥ a.switchInterval
    · have hu : a.update now =
          { a with state := if a.state = "E" then "R" else "E", lastSwitch := now } := by
        simp only [Agent.update, if_pos h]
      rw [hu]
      have hn : ¬ now - now ≥ a.switchInterval := by
        rw [sub_self]
        exact not_le.mpr hP
      simp only [Agent.update, if_neg hn]
    · have hu : a.update now = a := by simp only [Agent.update, if_neg h]
      rw [hu, hu]
  · intro hne
    by_cases h : now - a.lastSwitch ≥ a.switchInterval
    · rw [hflip h]
    · have hu : a.update now = a := by simp only [Agent.update, if_neg h]
      rw [hu] at hne
      exact absurd rfl hne

/-- Witness of the amended C16: the agent with `lastSwitch = 0` and `switchInterval = 1000`
updated at 1000, where it flips, and again at 1500. -/
theorem update_idempotent_within_period_witness :
    ((Agent.new "A" 0 0 (fun e c => c.handleEvent e) (1 / 2) 0).update 1000).update 1500 =
      (Agent.new "A" 0 0 (fun e c => c.handleEvent e) (1 / 2) 0).update 1000 :=
  (update_idempotent_within_period (Agent.new "A" 0 0 (fun e c => c.handleEvent e) (1 / 2) 0)
    1000 1500 (by decide!) (by decide!) (by decide!)).1 (Or.inl (by decide!))

/-- C17: `update` writes only `state` and `lastSwitch`: the id, the position, the switch
interval, the handler, `connected`, `timeout` and the pending timers are unchanged whether
or not the role flips, and the call emits no event. -/
theorem update_touches_role_only (a : Agent) (now : ℚ) :
    (a.update now).id = a.id ∧ (a.update now).x = a.x ∧ (a.update now).y = a.y ∧
    (a.update now).switchInterval = a.switchInterval ∧
    (a.update now).onEvent = a.onEvent ∧
    (a.update now).connected = a.connected ∧ (a.update now).timeout = a.timeout ∧
    (a.update now).timers = a.timers ∧ (a.update now).nextHandle = a.nextHandle ∧
    (a.step (.update now)).2 = [] ∧
    a.update now = { a with state := (a.update now).state, lastSwitch := (a.update now).lastSwitch } := by
  unfold Agent.update
  split <;> exact ⟨rfl, rfl, rfl, rfl, rfl, rfl, rfl, rfl, rfl, rfl, rfl⟩

/-- C18 on the code: in the demo (radius 10) agent C at (9,9) is out of range of A at (0,0)
but within range of B at (5,5), in both directions; and a tick can connect C: with A and C
switching after 500 and B after 1000, the tick at time 500 makes B signal C, and the
controller then maps "C" to "B". -/
theorem demo_c_in_range_of_b :
    ¬ (demo 0 (1 / 2) 0 0).arePhysicallyClose
      (Agent.new "C" 9 9 (fun e c => c.handleEvent e) 0 0)
      (Agent.new "A" 0 0 (fun e c => c.handleEvent e) 0 0) ∧
    (demo 0 (1 / 2) 0 0).arePhysicallyClose
      (Agent.new "C" 9 9 (fun e c => c.handleEvent e) 0 0)
      (Agent.new "B" 5 5 (fun e c => c.handleEvent e) (1 / 2) 0) ∧
    (demo 0 (1 / 2) 0 0).arePhysicallyClose
      (Agent.new "B" 5 5 (fun e c => c.handleEvent e) (1 / 2) 0)
      (Agent.new "C" 9 9 (fun e c => c.handleEvent e) 0 0) ∧
    (demo 0 (1 / 2) 0 0).agents =
      [Agent.new "A" 0 0 (fun e c => c.handleEvent e) 0 0,
       Agent.new "B" 5 5 (fun e c => c.handleEvent e) (1 / 2) 0,
       Agent.new "C" 9 9 (fun e c => c.handleEvent e) 0 0] ∧
    ((demo 0 (1 / 2) 0 0).tick 500).calls =
      [{ emitter := 1, receiver := 0, emitterId := "B" },
       { emitter := 1, receiver := 2, emitterId := "B" }] ∧
    ((demo 0 (1 / 2) 0 0).tick 500).controller.connections "C" = some (some "B") := by
  refine ⟨by decide!, by decide!, by decide!, rfl, by decide!, by decide!⟩

/-! ## Construction and stopping -/

theorem tick_calls_eq (s : Simulation) (now : ℚ) :
    (s.tick now).calls = s.calls ++ s.signalPairs (s.agents.map fun a => a.update now) := by
  unfold Simulation.tick
  rw [(scan_calls _ now).2, ← signalPairs_eq]
  rfl

/-- C15 against the code: a simulation with radius -1 over two agents that share the id
"A" is constructed without error, and it is started with the tick interval -100 without
error. -/
theorem construct_accepts_bad_configuration :
    (-1 : ℚ) ≤ 0 ∧
    ¬ ([Agent.new "A" 0 0 (fun e c => c.handleEvent e) 0 0,
        Agent.new "A" 1 1 (fun e c => c.handleEvent e) 0 0].map Agent.id).Nodup ∧
    (∃ s, Simulation.construct Controller.new
      [Agent.new "A" 0 0 (fun e c => c.handleEvent e) 0 0,
       Agent.new "A" 1 1 (fun e c => c.handleEvent e) 0 0] (-1) = .ok s ∧
      ∃ s', s.start (-100) = .ok s' ∧ s'.liveIntervals ≠ []) := by
  refine ⟨by decide!, by decide, _, rfl, _, rfl, ?_⟩
  simp [Simulation.run, Simulation.new]

/-- C15 as the code has it: the constructor rejects nothing. For every controller, agent
list and radius it returns the simulation holding them as given, and `run` starts an
interval for every tick interval. With a negative radius the simulation runs and its ticks
make no `receiveSignal` call. -/
theorem construct_never_rejects (controller : Controller) (agents : List Agent)
    (proximityRadius stepInterval now : ℚ) :
    Simulation.construct controller agents proximityRadius =
      .ok (Simulation.new controller agents proximityRadius) ∧
    (Simulation.new controller agents proximityRadius).agents = agents ∧
    (Simulation.new controller agents proximityRadius).proximityRadius = proximityRadius ∧
    (Simulation.new controller agents proximityRadius).start stepInterval =
      .ok (Simulation.new controller agents proximityRadius).run ∧
    (Simulation.new controller agents proximityRadius).run.liveIntervals ≠ [] ∧
    (proximityRadius < 0 →
      ((Simulation.new controller agents proximityRadius).run.tick now).calls = []) := by
  refine ⟨rfl, rfl, rfl, rfl, by simp [Simulation.run, Simulation.new], ?_⟩
  intro hneg
  rw [tick_calls_eq]
  have hnil : (Simulation.new controller agents proximityRadius).run.signalPairs
      ((Simulation.new controller agents proximityRadius).run.agents.map fun a => a.update now)
      = [] := by
    apply List.eq_nil_iff_forall_not_mem.mpr
    intro c hc
    obtain ⟨e, r, _, _, _, _, _, hclose, _⟩ := (mem_signalPairs _ _ c).mp hc
    have h0 := ((arePhysicallyClose_iff _ e r).mp hclose).1
    have hr : (Simulation.new controller agents proximityRadius).run.proximityRadius
        = proximityRadius := rfl
    rw [hr] at h0
    exact absurd hneg (not_lt.mpr h0)
  rw [hnil]
  rfl

/-- Witness of the amended C15: the demo agents with radius -1 tick at time 500 without a
call. -/
theorem construct_never_rejects_witness :
    ((Simulation.new Controller.new (demo 0 0 0 0).agents (-1)).run.tick 500).calls = [] :=
  (construct_never_rejects Controller.new (demo 0 0 0 0).agents (-1) 100 500).2.2.2.2.2
    (by decide!)

theorem signal_intervals (s : Simulation) (now : ℚ) (i j : Nat) :
    (s.signal now i j).liveIntervals = s.liveIntervals ∧
      (s.signal now i j).interval = s.interval := by
  cases h : s.reach i j with
  | false => rw [signal_of_not_reach s now i j h]; exact ⟨rfl, rfl⟩
  | true =>
    obtain ⟨e, r, _, _, _, hs⟩ := signal_of_reach s now i j h
    rw [hs]
    exact ⟨rfl, rfl⟩

theorem scan_intervals (s : Simulation) (now : ℚ) :
    (s.scan now).liveIntervals = s.liveIntervals ∧ (s.scan now).interval = s.interval := by
  have hinner : ∀ (i n : Nat) (t : Simulation),
      ((List.range n).foldl (fun t j => t.signal now i j) t).liveIntervals = t.liveIntervals ∧
      ((List.range n).foldl (fun t j => t.signal now i j) t).interval = t.interval := by
    intro i n t
    refine foldl_range_induct (fun t j => t.signal now i j)
      (fun _ u => u.liveIntervals = t.liveIntervals ∧ u.interval = t.interval) n t
      ⟨rfl, rfl⟩ ?_
    rintro m u - ⟨h1, h2⟩
    obtain ⟨h3, h4⟩ := signal_intervals u now i m
    exact ⟨h3.trans h1, h4.trans h2⟩
  unfold Simulation.scan
  refine foldl_range_induct (fun t i => t.emit now i)
    (fun _ u => u.liveIntervals = s.liveIntervals ∧ u.interval = s.interval) _ s
    ⟨rfl, rfl⟩ ?_
  rintro m u - ⟨h1, h2⟩
  rcases emit_cases u now m with h | h
  · simp only [h]
    exact ⟨h1, h2⟩
  · simp only [h]
    obtain ⟨h3, h4⟩ := hinner m u.agents.length u
    exact ⟨h3.trans h1, h4.trans h2⟩

theorem step_intervals (s : Simulation) (act : SimAction) :
    (s.step act).liveIntervals = s.liveIntervals ∧ (s.step act).interval = s.interval := by
  cases act with
  | tick now =>
    show (if s.liveIntervals.isEmpty then s else s.tick now).liveIntervals = _ ∧
      (if s.liveIntervals.isEmpty then s else s.tick now).interval = _
    by_cases h : s.liveIntervals.isEmpty = true
    · simp only [if_pos h, and_self]
    · simp only [if_neg h]
      exact scan_intervals _ now
  | fireTimer j handle now =>
    show (s.fireTimer j handle now).liveIntervals = _ ∧ (s.fireTimer j handle now).interval = _
    unfold Simulation.fireTimer
    cases s.agents[j]? <;> exact ⟨rfl, rfl⟩

theorem exec_intervals (acts : List SimAction) (s : Simulation) :
    (s.exec acts).liveIntervals = s.liveIntervals ∧ (s.exec acts).interval = s.interval := by
  induction acts generalizing s with
  | nil => exact ⟨rfl, rfl⟩
  | cons act rest ih =>
    obtain ⟨h1, h2⟩ := ih (s.step act)
    obtain ⟨h3, h4⟩ := step_intervals s act
    exact ⟨h1.trans h3, h2.trans h4⟩

theorem fireTimer_events (a : Agent) (handle : Nat) (now : ℚ) :
    ∀ ev ∈ (a.fireTimer handle now).2,
      ev = { type := "DISCONNECTED", id := a.id, to_ := none } := by
  intro ev hev
  unfold Agent.fireTimer at hev
  split at hev
  · exact List.mem_singleton.mp hev
  · cases hev

theorem step_stopped (s : Simulation) (act : SimAction) (h : s.liveIntervals = []) :
    (s.step act).calls = s.calls ∧
      ∃ evs, (s.step act).trace = s.trace ++ evs ∧ ∀ ev ∈ evs, ev.type = "DISCONNECTED" := by
  cases act with
  | tick now =>
    have hs : s.step (.tick now) = s := by
      show (if s.liveIntervals.isEmpty then s else s.tick now) = s
      rw [h]
      rfl
    rw [hs]
    exact ⟨rfl, [], by simp, fun ev hev => by cases hev⟩
  | fireTimer j handle now =>
    show (s.fireTimer j handle now).calls = _ ∧ ∃ evs, (s.fireTimer j handle now).trace = _ ∧ _
    unfold Simulation.fireTimer
    cases hj : s.agents[j]? with
    | none => exact ⟨rfl, [], by simp, fun ev hev => by cases hev⟩
    | some a =>
      refine ⟨rfl, _, rfl, ?_⟩
      intro ev hev
      rw [fireTimer_events a handle now ev hev]

theorem exec_stopped (acts : List SimAction) (s : Simulation) (h : s.liveIntervals = []) :
    (s.exec acts).calls = s.calls ∧
      ∃ evs, (s.exec acts).trace = s.trace ++ evs ∧ ∀ ev ∈ evs, ev.type = "DISCONNECTED" := by
  induction acts generalizing s with
  | nil => exact ⟨rfl, [], by simp [Simulation.exec], fun ev hev => by cases hev⟩
  | cons act rest ih =>
    obtain ⟨hc, evs, htr, hev⟩ := step_stopped s act h
    obtain ⟨hc', evs', htr', hev'⟩ := ih (s.step act) ((step_intervals s act).1.trans h)
    refine ⟨hc'.trans hc, evs ++ evs', ?_, ?_⟩
    · show ((s.step act).exec rest).trace = _
      rw [htr', htr, List.append_assoc]
    · intro ev hmem
      rcases List.mem_append.mp hmem with hm | hm
      · exact hev ev hm
      · exact hev' ev hm

/-- C13 against the code: the demo is started, ticks once at time 500, which connects A
and C to B, and is stopped. The timer of A, pending at the stop, then fires at time 1500
and a DISCONNECTED event for "A" is delivered to the controller, which drops the entry. -/
theorem event_after_stop_counterexample :
    ((demo 0 (1 / 2) 0 0).run.exec [.tick 500]).stop.liveIntervals = [] ∧
    ((demo 0 (1 / 2) 0 0).run.exec [.tick 500]).stop.controller.connections "A"
      = some (some "B") ∧
    (((demo 0 (1 / 2) 0 0).run.exec [.tick 500]).stop.exec [.fireTimer 0 0 1500]).trace =
      ((demo 0 (1 / 2) 0 0).run.exec [.tick 500]).stop.trace ++
        [{ type := "DISCONNECTED", id := "A", to_ := none }] ∧
    (((demo 0 (1 / 2) 0 0).run.exec [.tick 500]).stop.exec
      [.fireTimer 0 0 1500]).controller.connections "A" = none := by
  refine ⟨by decide!, by decide!, by decide!, by decide!⟩

/-- C13 as the code has it: `stop` clears the interval and nothing else. After a
simulation started once has been stopped, no tick runs: whatever the runtime does next,
no `receiveSignal` call is made and no CONNECTED event is delivered; every event that is
still delivered is the DISCONNECTED event of a disconnect timer. -/
theorem no_connected_after_stop (controller : Controller) (agents : List Agent)
    (proximityRadius : ℚ) (pre post : List SimAction) :
    ((Simulation.new controller agents proximityRadius).run.exec pre).stop.liveIntervals = [] ∧
    (((Simulation.new controller agents proximityRadius).run.exec pre).stop.exec post).calls =
      ((Simulation.new controller agents proximityRadius).run.exec pre).stop.calls ∧
    ∃ evs,
      (((Simulation.new controller agents proximityRadius).run.exec pre).stop.exec post).trace =
        ((Simulation.new controller agents proximityRadius).run.exec pre).stop.trace ++ evs ∧
      ∀ ev ∈ evs, ev.type = "DISCONNECTED" := by
  have hstop :
      ((Simulation.new controller agents proximityRadius).run.exec pre).stop.liveIntervals
        = [] := by
    obtain ⟨h1, h2⟩ := exec_intervals pre (Simulation.new controller agents proximityRadius).run
    have h3 : (Simulation.new controller agents proximityRadius).run.interval = some 0 := rfl
    have h4 : (Simulation.new controller agents proximityRadius).run.liveIntervals = [0] := rfl
    rw [h3] at h2
    rw [h4] at h1
    simp [Simulation.stop, h1, h2]
  exact ⟨hstop, exec_stopped post _ hstop⟩

/-! ## The scan, receiver by receiver -/

theorem inner_preserve {s₀ t : Simulation} (now : ℚ) (i n : Nat) (P : Simulation → Prop)
    (hF : s₀.Frame t) (h0 : P t)
    (hstep : ∀ u j, s₀.Frame u → P u → P (u.signal now i j)) :
    s₀.Frame ((List.range n).foldl (fun s j => s.signal now i j) t) ∧
      P ((List.range n).foldl (fun s j => s.signal now i j) t) := by
  refine foldl_range_induct (fun s j => s.signal now i j) (fun _ u => s₀.Frame u ∧ P u) n t
    ⟨hF, h0⟩ ?_
  rintro m u - ⟨hFu, hu⟩
  exact ⟨frame_trans hFu (signal_frame u now i m), hstep u m hFu hu⟩

theorem scan_preserve (s : Simulation) (now : ℚ) (P : Simulation → Prop) (h0 : P s)
    (hstep : ∀ u i j, s.Frame u → s.emitting i = true → P u → P (u.signal now i j)) :
    s.Frame (s.scan now) ∧ P (s.scan now) := by
  unfold Simulation.scan
  refine foldl_range_induct (fun t i => t.emit now i) (fun _ u => s.Frame u ∧ P u) _ s
    ⟨frame_refl s, h0⟩ ?_
  rintro m u - ⟨hFu, hu⟩
  simp only [emit_eq, emitting_congr hFu]
  by_cases hEm : s.emitting m = true
  · rw [if_pos hEm]
    exact inner_preserve now m _ P hFu hu fun v j hFv hv => hstep v m j hFv hEm hv
  · rw [if_neg hEm]
    exact ⟨hFu, hu⟩

theorem inner_phase {s₀ t : Simulation} (now : ℚ) (i n k : Nat) (W L : Simulation → Prop)
    (hk : k < n) (hF : s₀.Frame t) (h0 : W t)
    (hWW : ∀ u j, s₀.Frame u → W u → j < k → W (u.signal now i j))
    (hWL : ∀ u, s₀.Frame u → W u → L (u.signal now i k))
    (hLL : ∀ u j, s₀.Frame u → L u → L (u.signal now i j)) :
    s₀.Frame ((List.range n).foldl (fun s j => s.signal now i j) t) ∧
      L ((List.range n).foldl (fun s j => s.signal now i j) t) := by
  have key := foldl_range_induct (fun s j => s.signal now i j)
    (fun m u => s₀.Frame u ∧ (if m ≤ k then W u else L u)) n t
    ⟨hF, by rw [if_pos (Nat.zero_le k)]; exact h0⟩ (by
      rintro m u - ⟨hFu, hu⟩
      refine ⟨frame_trans hFu (signal_frame u now i m), ?_⟩
      by_cases hmk : m + 1 ≤ k
      · rw [if_pos hmk]
        rw [if_pos (Nat.le_of_succ_le hmk)] at hu
        exact hWW u m hFu hu hmk
      · rw [if_neg hmk]
        by_cases hmk' : m ≤ k
        · rw [if_pos hmk'] at hu
          have hme : m = k := Nat.le_antisymm hmk' (Nat.le_of_lt_succ (Nat.lt_of_not_le hmk))
          subst hme
          exact hWL u hFu hu
        · rw [if_neg hmk'] at hu
          exact hLL u m hFu hu)
  beta_reduce at key
  rw [if_neg (Nat.not_le_of_lt hk)] at key
  exact key

/-- The scan in three phases for the receiver at index `k` first reached by the emitter at
index `i`: `W` holds up to the signal from `i` to `k`, which establishes `L`, and `L` holds
from then on. -/
theorem scan_phase (s : Simulation) (now : ℚ) (i k : Nat) (W L : Simulation → Prop)
    (hi : i < s.agents.length) (hk : k < s.agents.length) (hem : s.emitting i = true)
    (h0 : W s)
    (hWW : ∀ u i' j, s.Frame u → W u → s.emitting i' = true → i' < i ∨ (i' = i ∧ j < k) →
      W (u.signal now i' j))
    (hWL : ∀ u, s.Frame u → W u → L (u.signal now i k))
    (hLL : ∀ u i' j, s.Frame u → L u → L (u.signal now i' j)) :
    s.Frame (s.scan now) ∧ L (s.scan now) := by
  have key := foldl_range_induct (fun t i => t.emit now i)
    (fun m u => s.Frame u ∧ (if m ≤ i then W u else L u)) s.agents.length s
    ⟨frame_refl s, by rw [if_pos (Nat.zero_le i)]; exact h0⟩ (by
      rintro m u - ⟨hFu, hu⟩
      simp only [emit_eq, emitting_congr hFu, frame_length hFu]
      by_cases hEm : s.emitting m = true
      · rw [if_pos hEm]
        by_cases hmi : m + 1 ≤ i
        · rw [if_pos hmi]
          rw [if_pos (Nat.le_of_succ_le hmi)] at hu
          exact inner_preserve now m _ W hFu hu fun v j hFv hv =>
            hWW v m j hFv hv hEm (Or.inl hmi)
        · rw [if_neg hmi]
          by_cases hmi' : m ≤ i
          · rw [if_pos hmi'] at hu
            have hme : m = i := Nat.le_antisymm hmi' (Nat.le_of_lt_succ (Nat.lt_of_not_le hmi))
            subst hme
            exact inner_phase now m _ k W L hk hFu hu
              (fun v j hFv hv hj => hWW v m j hFv hv hEm (Or.inr ⟨rfl, hj⟩))
              hWL (fun v j hFv hv => hLL v m j hFv hv)
          · rw [if_neg hmi'] at hu
            exact inner_preserve now m _ L hFu hu fun v j hFv hv => hLL v m j hFv hv
      · rw [if_neg hEm]
        refine ⟨hFu, ?_⟩
        by_cases hmi : m + 1 ≤ i
        · rw [if_pos hmi]
          rw [if_pos (Nat.le_of_succ_le hmi)] at hu
          exact hu
        · rw [if_neg hmi]
          by_cases hmi' : m ≤ i
          · have hme : m = i := Nat.le_antisymm hmi' (Nat.le_of_lt_succ (Nat.lt_of_not_le hmi))
            subst hme
            exact absurd hem hEm
          · rw [if_neg hmi'] at hu
            exact hu)
  unfold Simulation.scan
  beta_reduce at key
  rw [if_neg (Nat.not_le_of_lt hi)] at key
  exact key

theorem signal_agent_other (s : Simulation) (now : ℚ) (i j k : Nat) (h : j ≠ k) :
    (s.signal now i j).agents[k]? = s.agents[k]? := by
  cases hre : s.reach i j with
  | false => rw [signal_of_not_reach s now i j hre]
  | true =>
    obtain ⟨e, r, _, _, _, hs⟩ := signal_of_reach s now i j hre
    rw [hs]
    exact List.getElem?_set_ne h

theorem signal_connections_other {s₀ s : Simulation} (hF : s₀.Frame s) (hw : s₀.Wired)
    (now : ℚ) (i j : Nat) (key : String) (h : ∀ r, s₀.agents[j]? = some r → r.id ≠ key) :
    (s.signal now i j).controller.connections key = s.controller.connections key := by
  cases hre : s.reach i j with
  | false => rw [signal_of_not_reach s now i j hre]
  | true =>
    obtain ⟨e, r, _, hr, _, hs⟩ := signal_of_reach s now i j hre
    obtain ⟨r', hr', hrc⟩ := frame_back hF hr
    have hid : key ≠ r.id := by
      rw [core_id hrc]
      exact fun hc => h r' hr' hc.symm
    have hon : r.onEvent = fun ev c => c.handleEvent ev := by
      rw [core_onEvent hrc]
      exact hw r' (List.getElem?_mem hr')
    rw [hs]
    simp only [hon]
    unfold Agent.receiveSignal
    split
    · simp only [List.foldl_cons, List.foldl_nil]
      exact handleEvent_other _ _ _ hid
    · rfl

theorem signal_of_connected (s : Simulation) (now : ℚ) (i j : Nat) {r : Agent}
    (hr : s.agents[j]? = some r) (hc : r.connected = true) :
    (s.signal now i j).controller = s.controller ∧ (s.signal now i j).agents = s.agents ∧
      (s.signal now i j).trace = s.trace := by
  cases hre : s.reach i j with
  | false => rw [signal_of_not_reach s now i j hre]; exact ⟨rfl, rfl, rfl⟩
  | true =>
    obtain ⟨e, r', _, hr', _, hs⟩ := signal_of_reach s now i j hre
    have hrr : r' = r := Option.some.inj (hr'.symm.trans hr)
    rw [hrr] at hs
    rw [hs, receiveSignal_of_connected r e.id now hc]
    exact ⟨rfl, set_eq_self _ _ _ hr, List.append_nil _⟩

theorem signal_held_true {s₀ s : Simulation} (hF : s₀.Frame s)
    (hn : (s₀.agents.map Agent.id).Nodup) (hw : s₀.Wired) (now : ℚ) (i j : Nat) {k : Nat}
    {r₀ : Agent} (hr₀ : s₀.agents[k]? = some r₀) (c : Option (Option String))
    (h : s.Held k r₀.id c true) : (s.signal now i j).Held k r₀.id c true := by
  obtain ⟨⟨a, ha, hac⟩, hcon⟩ := h
  by_cases hjk : j = k
  · subst hjk
    obtain ⟨h1, h2, _⟩ := signal_of_connected s now i j ha hac
    exact ⟨⟨a, by rw [h2]; exact ha, hac⟩, by rw [h1]; exact hcon⟩
  · refine ⟨⟨a, by rw [signal_agent_other s now i j k hjk]; exact ha, hac⟩, ?_⟩
    rw [signal_connections_other hF hw now i j r₀.id]
    · exact hcon
    · intro r hr
      exact nodup_id_ne hn hr₀ hr hjk

theorem signal_held_false {s₀ s : Simulation} (hF : s₀.Frame s)
    (hn : (s₀.agents.map Agent.id).Nodup) (hw : s₀.Wired) (now : ℚ) (i j : Nat) {k : Nat}
    {r₀ : Agent} (hr₀ : s₀.agents[k]? = some r₀) (c : Option (Option String))
    (h : s.Held k r₀.id c false) (hno : j ≠ k ∨ s₀.reach i k = false) :
    (s.signal now i j).Held k r₀.id c false := by
  cases hre : s.reach i j with
  | false => rw [signal_of_not_reach s now i j hre]; exact h
  | true =>
    have hjk : j ≠ k := by
      rcases hno with hno | hno
      · exact hno
      · intro hjk
        subst hjk
        rw [reach_congr hF] at hre
        rw [hre] at hno
        cases hno
    obtain ⟨⟨a, ha, hac⟩, hcon⟩ := h
    refine ⟨⟨a, by rw [signal_agent_other s now i j k hjk]; exact ha, hac⟩, ?_⟩
    rw [signal_connections_other hF hw now i j r₀.id]
    · exact hcon
    · intro r hr
      exact nodup_id_ne hn hr₀ hr hjk

theorem signal_links_trace {s₀ s : Simulation} (hF : s₀.Frame s) (now : ℚ)
    (i k : Nat) {e₀ r₀ : Agent} (he₀ : s₀.agents[i]? = some e₀) (hr₀ : s₀.agents[k]? = some r₀)
    (hre : s₀.reach i k = true) (h : s.Waiting k) :
    (s.signal now i k).trace =
      s.trace ++ [{ type := "CONNECTED", id := r₀.id, to_ := some e₀.id }] := by
  rw [← reach_congr hF] at hre
  obtain ⟨e, r, he, hr, hne, hs⟩ := signal_of_reach s now i k hre
  obtain ⟨a, ha, hac⟩ := h
  have har : a = r := Option.some.inj (ha.symm.trans hr)
  rw [har] at hac
  obtain ⟨e', he', hec⟩ := frame_back hF he
  obtain ⟨r', hr', hrc⟩ := frame_back hF hr
  have hee : e' = e₀ := Option.some.inj (he'.symm.trans he₀)
  have hrr : r' = r₀ := Option.some.inj (hr'.symm.trans hr₀)
  rw [hee] at hec
  rw [hrr] at hrc
  rw [hs, receiveSignal_of_not_connected r e.id now hac, core_id hec, core_id hrc]

theorem signal_trace_grows (s : Simulation) (now : ℚ) (i j : Nat) :
    ∃ evs, (s.signal now i j).trace = s.trace ++ evs := by
  obtain ⟨evs, h, _⟩ := signal_trace s s now i j (frame_refl s)
  exact ⟨evs, h⟩

theorem update_fields (a : Agent) (now : ℚ) :
    (a.update now).id = a.id ∧ (a.update now).x = a.x ∧ (a.update now).y = a.y ∧
      (a.update now).onEvent = a.onEvent ∧ (a.update now).connected = a.connected := by
  unfold Agent.update
  split <;> exact ⟨rfl, rfl, rfl, rfl, rfl⟩

/-- C12: on the demo configuration (A at (0,0), B at (5,5), C at (9,9), radius 10, the
handlers being the controller's) in whatever state, a tick after whose updates A is in
state "E" and B in state "R", B not being connected, connects B, delivers the event
CONNECTED{id: "B", to: "A"} and makes the controller map "B" to "A"; and whatever the
roles, no tick makes a `receiveSignal` call from A to C or from C to A. -/
theorem demo_end_to_end (s : Simulation) (now : ℚ) (a b c : Agent)
    (hs : s.agents = [a, b, c]) (hr : s.proximityRadius = 10) (hw : s.Wired)
    (ha : a.id = "A" ∧ a.x = 0 ∧ a.y = 0) (hb : b.id = "B" ∧ b.x = 5 ∧ b.y = 5)
    (hc : c.id = "C" ∧ c.x = 9 ∧ c.y = 9) :
    ((a.update now).state = "E" → (b.update now).state = "R" → b.connected = false →
      (∃ b', (s.tick now).agents[1]? = some b' ∧ b'.id = "B" ∧ b'.connected = true) ∧
      (∃ evs, (s.tick now).trace = s.trace ++ evs ∧
        { type := "CONNECTED", id := "B", to_ := some "A" } ∈ evs) ∧
      (s.tick now).controller.connections "B" = some (some "A")) ∧
    (∃ calls, (s.tick now).calls = s.calls ++ calls ∧
      ∀ call ∈ calls, ¬ (call.emitter = 0 ∧ call.receiver = 2) ∧
        ¬ (call.emitter = 2 ∧ call.receiver = 0)) := by
  have hag : (s.agents.map fun a => a.update now) =
      [a.update now, b.update now, c.update now] := by
    rw [hs]
    rfl
  obtain ⟨hai, hax, hay, -, -⟩ := update_fields a now
  obtain ⟨hbi, hbx, hby, -, hbc⟩ := update_fields b now
  obtain ⟨hci, hcx, hcy, -, -⟩ := update_fields c now
  constructor
  · intro hE hR hnc
    have hn : ((s.agents.map fun a => a.update now).map Agent.id).Nodup := by
      rw [hag]
      simp only [List.map_cons, List.map_nil, hai, hbi, hci, ha.1, hb.1, hc.1]
      decide
    have hw' : Simulation.Wired { s with agents := s.agents.map fun a => a.update now } := by
      intro x hx
      obtain ⟨y, hy, rfl⟩ := List.mem_map.mp hx
      rw [update_onEvent]
      exact hw y hy
    have h0 : (s.agents.map fun a => a.update now)[0]? = some (a.update now) := by
      rw [hag]; rfl
    have h1 : (s.agents.map fun a => a.update now)[1]? = some (b.update now) := by
      rw [hag]; rfl
    have hem : Simulation.emitting { s with agents := s.agents.map fun a => a.update now } 0
        = true := by
      simp only [Simulation.emitting, h0, decide_eq_true hE]
    have hre : Simulation.reach { s with agents := s.agents.map fun a => a.update now } 0 1
        = true := by
      simp only [Simulation.reach, h0, h1]
      apply decide_eq_true
      refine ⟨by decide, hR, ?_⟩
      rw [arePhysicallyClose_iff]
      simp only [hr, hax, hay, hbx, hby, ha.2.1, ha.2.2, hb.2.1, hb.2.2]
      norm_num
    have hlen : (s.agents.map fun a => a.update now).length = 3 := by rw [hag]; rfl
    have hpB : (b.update now).id ≠ "__proto__" := by
      rw [hbi, hb.1]
      decide
    have key := scan_phase { s with agents := s.agents.map fun a => a.update now } now 0 1
      (fun u => u.Waiting 1 ∧ ∃ evs, u.trace = s.trace ++ evs)
      (fun u => u.Linked 1 (b.update now).id (a.update now).id ∧
        ∃ evs, u.trace = s.trace ++ evs ∧
          { type := "CONNECTED", id := (b.update now).id, to_ := some (a.update now).id } ∈ evs)
      (by rw [hlen]; decide) (by rw [hlen]; decide) hem
      ⟨⟨b.update now, h1, hbc.trans hnc⟩, [], (List.append_nil _).symm⟩
      (by
        rintro u i' j hFu ⟨hW, evs, htr⟩ - hpos
        have hj : j ≠ 1 := by
          rcases hpos with h | ⟨-, h⟩
          · exact absurd h (Nat.not_lt_zero i')
          · exact Nat.ne_of_lt h
        obtain ⟨evs', htr'⟩ := signal_trace_grows u now i' j
        exact ⟨signal_waiting hFu now i' j 1 hW (Or.inl hj), evs ++ evs',
          by rw [htr', htr, List.append_assoc]⟩)
      (by
        rintro u hFu ⟨hW, evs, htr⟩
        refine ⟨signal_links hFu hw' now 0 1 h0 h1 hre hpB hW,
          evs ++ [(⟨"CONNECTED", (b.update now).id, some (a.update now).id⟩ : Event)], ?_, ?_⟩
        · rw [signal_links_trace hFu now 0 1 h0 h1 hre hW, htr, List.append_assoc]
        · exact List.mem_append_right _ (List.mem_singleton.mpr rfl))
      (by
        rintro u i' j hFu ⟨hL, evs, htr, hmem⟩
        obtain ⟨evs', htr'⟩ := signal_trace_grows u now i' j
        exact ⟨signal_linked hFu hn hw' now i' j h1 _ hL, evs ++ evs',
          by rw [htr', htr, List.append_assoc], List.mem_append_left _ hmem⟩)
    obtain ⟨hF, ⟨⟨b', hb', hcon⟩, hmap⟩, evs, htr, hmem⟩ := key
    rw [hbi, hb.1, hai, ha.1] at hmap hmem
    refine ⟨⟨b', hb', ?_, hcon⟩, ⟨evs, htr, hmem⟩, hmap⟩
    obtain ⟨r, hr', hrc⟩ := frame_back hF hb'
    have : r = b.update now := Option.some.inj (hr'.symm.trans h1)
    rw [core_id hrc, this, hbi, hb.1]
  · refine ⟨_, tick_calls_eq s now, ?_⟩
    intro call hcall
    obtain ⟨e, r, he, hr', -, -, -, hclose, -⟩ := (mem_signalPairs _ _ call).mp hcall
    rw [arePhysicallyClose_iff, hr] at hclose
    rw [hag] at he hr'
    constructor
    · rintro ⟨h1, h2⟩
      rw [h1] at he
      rw [h2] at hr'
      have hee : e = a.update now := (Option.some.inj he).symm
      have hrr : r = c.update now := (Option.some.inj hr').symm
      rw [hee, hrr, hax, hay, hcx, hcy, ha.2.1, ha.2.2, hc.2.1, hc.2.2] at hclose
      norm_num at hclose
    · rintro ⟨h1, h2⟩
      rw [h1] at he
      rw [h2] at hr'
      have hee : e = c.update now := (Option.some.inj he).symm
      have hrr : r = a.update now := (Option.some.inj hr').symm
      rw [hee, hrr, hax, hay, hcx, hcy, ha.2.1, ha.2.2, hc.2.1, hc.2.2] at hclose
      norm_num at hclose

/-- Witness of C12: the demo with B switching after 500 and A, C after 1000, ticking at
time 500. -/
theorem demo_end_to_end_witness :
    ((demo (1 / 2) 0 (1 / 2) 0).tick 500).controller.connections "B" = some (some "A") :=
  ((demo_end_to_end (demo (1 / 2) 0 (1 / 2) 0) 500
    (Agent.new "A" 0 0 (fun e c => c.handleEvent e) (1 / 2) 0)
    (Agent.new "B" 5 5 (fun e c => c.handleEvent e) 0 0)
    (Agent.new "C" 9 9 (fun e c => c.handleEvent e) (1 / 2) 0)
    rfl rfl (by simp [Simulation.Wired, demo, Simulation.new, Agent.new])
    ⟨rfl, rfl, rfl⟩ ⟨rfl, rfl, rfl⟩ ⟨rfl, rfl, rfl⟩).1
    (by decide!) (by decide!) rfl).2.2

/-! ## The controller's view of the agents -/

theorem reach_spec (s : Simulation) (i j : Nat) (h : s.reach i j = true) :
    ∃ e r, s.agents[i]? = some e ∧ s.agents[j]? = some r ∧ j ≠ i ∧ r.state = "R" ∧
      s.arePhysicallyClose e r := by
  unfold Simulation.reach at h
  cases he : s.agents[i]? with
  | none => rw [he] at h; cases h
  | some e =>
    cases hr : s.agents[j]? with
    | none => rw [he, hr] at h; cases h
    | some r =>
      rw [he, hr] at h
      simp only [decide_eq_true_eq] at h
      exact ⟨e, r, rfl, rfl, h.1, h.2.1, h.2.2⟩

theorem emitting_spec (s : Simulation) (i : Nat) {e : Agent} (he : s.agents[i]? = some e)
    (h : s.emitting i = true) : e.state = "E" := by
  unfold Simulation.emitting at h
  rw [he] at h
  simpa using h

theorem frame_ids {s₀ s : Simulation} (h : s₀.Frame s) :
    s.agents.map Agent.id = s₀.agents.map Agent.id := by
  have := congrArg (List.map Prod.fst) h.2
  simpa [List.map_map, Function.comp_def, Agent.core] using this

/-- What a scan does to the receiver at index `k`: a connected receiver stays connected
with its entry untouched; a receiver not connected which no emitter reaches stays so with
its entry untouched; a receiver not connected which some emitter reaches is connected and
its entry is the id of an emitter that reaches it. -/
theorem scan_receiver (p : Simulation) (now : ℚ) (hn : (p.agents.map Agent.id).Nodup)
    (hw : p.Wired) (k : Nat) (r : Agent) (hr : p.agents[k]? = some r)
    (hp : r.id ≠ "__proto__") :
    (r.connected = true ∧
      (p.scan now).Held k r.id (p.controller.connections r.id) true) ∨
    (r.connected = false ∧
      (p.scan now).Held k r.id (p.controller.connections r.id) false) ∨
    (r.connected = false ∧ ∃ i e, p.agents[i]? = some e ∧ p.emitting i = true ∧
      p.reach i k = true ∧ (p.scan now).Held k r.id (some (some e.id)) true) := by
  cases hc : r.connected with
  | true =>
    left
    exact ⟨rfl, (scan_preserve p now (fun u => u.Held k r.id (p.controller.connections r.id) true)
      ⟨⟨r, hr, hc⟩, rfl⟩
      fun u i j hFu _ hu => signal_held_true hFu hn hw now i j hr _ hu).2⟩
  | false =>
    right
    by_cases hex : ∃ i, p.emitting i = true ∧ p.reach i k = true
    · right
      have hmin : ∀ i', i' < Nat.find hex → p.emitting i' = true → p.reach i' k = false := by
        intro i' hi' hem
        have := Nat.find_min hex hi'
        cases hre : p.reach i' k with
        | false => rfl
        | true => exact absurd ⟨hem, hre⟩ this
      obtain ⟨hem, hre⟩ := Nat.find_spec hex
      obtain ⟨e, r', he, _, _, _, _⟩ := reach_spec p _ k hre
      refine ⟨rfl, Nat.find hex, e, he, hem, hre, ?_⟩
      exact (scan_phase p now (Nat.find hex) k
        (fun u => u.Held k r.id (p.controller.connections r.id) false)
        (fun u => u.Held k r.id (some (some e.id)) true)
        (getElem?_lt he) (getElem?_lt hr) hem ⟨⟨r, hr, hc⟩, rfl⟩
        (by
          intro u i' j hFu hu hem' hpos
          apply signal_held_false hFu hn hw now i' j hr _ hu
          rcases hpos with h | ⟨-, h⟩
          · exact Or.inr (hmin i' h hem')
          · exact Or.inl (Nat.ne_of_lt h))
        (fun u hFu hu => signal_links hFu hw now _ k he hr hre hp hu.1)
        (fun u i' j hFu hu => signal_held_true hFu hn hw now i' j hr _ hu)).2
    · left
      refine ⟨rfl, (scan_preserve p now
        (fun u => u.Held k r.id (p.controller.connections r.id) false) ⟨⟨r, hr, hc⟩, rfl⟩ ?_).2⟩
      intro u i j hFu hem hu
      apply signal_held_false hFu hn hw now i j hr _ hu
      right
      cases hre : p.reach i k with
      | false => rfl
      | true => exact absurd ⟨i, hem, hre⟩ hex

theorem scan_foreign (p : Simulation) (now : ℚ) (hw : p.Wired) (key : String)
    (h : ∀ (k : Nat) (a : Agent), p.agents[k]? = some a → a.id ≠ key) :
    (p.scan now).controller.connections key = p.controller.connections key :=
  (scan_preserve p now
    (fun u => u.controller.connections key = p.controller.connections key) rfl
    fun _ i j hFu _ hu =>
      (signal_connections_other hFu hw now i j key fun r hr => h j r hr).trans hu).2

theorem signal_settled (s : Simulation) (now : ℚ) (i j : Nat)
    (h : ∀ (k : Nat) (a : Agent), s.agents[k]? = some a → a.Settled) :
    ∀ (k : Nat) (a : Agent), (s.signal now i j).agents[k]? = some a → a.Settled := by
  cases hre : s.reach i j with
  | false => rw [signal_of_not_reach s now i j hre]; exact h
  | true =>
    obtain ⟨e, r, _, hr, _, hs⟩ := signal_of_reach s now i j hre
    rw [hs]
    intro k a ha
    simp only [List.getElem?_set] at ha
    by_cases hjk : j = k
    · rw [if_pos hjk] at ha
      split at ha
      · cases ha
        exact settled_step r (.receiveSignal e.id now) (h j r hr)
      · cases ha
    · rw [if_neg hjk] at ha
      exact h k a ha

theorem scan_settled (p : Simulation) (now : ℚ)
    (h : ∀ (k : Nat) (a : Agent), p.agents[k]? = some a → a.Settled) :
    ∀ (k : Nat) (a : Agent), (p.scan now).agents[k]? = some a → a.Settled :=
  (scan_preserve p now (fun u => ∀ (k : Nat) (a : Agent), u.agents[k]? = some a → a.Settled) h
    fun u i j _ _ hu => signal_settled u now i j hu).2

theorem same_index {agents : List Agent} (hn : (agents.map Agent.id).Nodup) {k k' : Nat}
    {a a' : Agent} (ha : agents[k]? = some a) (ha' : agents[k']? = some a')
    (hid : a'.id = a.id) : k' = k ∧ a' = a := by
  have hk : k' = k := by
    by_contra hne
    exact nodup_id_ne hn ha ha' hne hid
  subst hk
  exact ⟨rfl, Option.some.inj (ha'.symm.trans ha)⟩

theorem synced_none {p : Simulation} (h : p.Sound) {k : Nat} {r : Agent}
    (hr : p.agents[k]? = some r) (hc : r.connected = false) :
    p.controller.connections r.id = none := by
  by_contra hne
  obtain ⟨k', a, ha, hid, hac⟩ := (h.2.2.2.1 r.id).mp hne
  obtain ⟨-, haa⟩ := same_index h.1 hr ha hid
  rw [haa, hc] at hac
  cases hac

theorem held_id {p s : Simulation} (hF : p.Frame s) {k : Nat} {r a : Agent}
    (hr : p.agents[k]? = some r) (ha : s.agents[k]? = some a) : a.id = r.id := by
  obtain ⟨r', hr', hrc⟩ := frame_back hF ha
  have : r' = r := Option.some.inj (hr'.symm.trans hr)
  rw [core_id hrc, this]

theorem sound_scan (p : Simulation) (now : ℚ) (h : p.Sound) : (p.scan now).Sound := by
  have hF : p.Frame (p.scan now) := (scan_calls p now).1
  obtain ⟨hn, hw, hset, hsync, hplain⟩ := h
  refine ⟨?_, ?_, scan_settled p now hset, ?_, ?_⟩
  rotate_right
  · intro k a ha
    obtain ⟨r, hr, hrc⟩ := frame_back hF ha
    rw [core_id hrc]
    exact hplain k r hr
  · rw [frame_ids hF]
    exact hn
  · intro a ha
    obtain ⟨k, hk⟩ := List.mem_iff_getElem?.mp ha
    obtain ⟨r, hr, hrc⟩ := frame_back hF hk
    rw [core_onEvent hrc]
    exact hw r (List.getElem?_mem hr)
  · intro key
    constructor
    · intro hne
      by_cases hkey : ∃ (k : Nat) (r : Agent), p.agents[k]? = some r ∧ r.id = key
      · obtain ⟨k, r, hr, rfl⟩ := hkey
        rcases scan_receiver p now hn hw k r hr (hplain k r hr) with ⟨-, ⟨a, ha, hac⟩, -⟩ |
            ⟨hc, -, hcon⟩ | ⟨-, i, e, -, -, -, ⟨a, ha, hac⟩, -⟩
        · exact ⟨k, a, ha, held_id hF hr ha, hac⟩
        · rw [hcon, synced_none ⟨hn, hw, hset, hsync, hplain⟩ hr hc] at hne
          exact absurd rfl hne
        · exact ⟨k, a, ha, held_id hF hr ha, hac⟩
      · rw [scan_foreign p now hw key fun k a ha hid => hkey ⟨k, a, ha, hid⟩] at hne
        obtain ⟨k, a, ha, hid, -⟩ := (hsync key).mp hne
        exact absurd ⟨k, a, ha, hid⟩ hkey
    · rintro ⟨k, a, ha, hid, hac⟩
      obtain ⟨r, hr, hrc⟩ := frame_back hF ha
      have hrid : r.id = key := by rw [← core_id hrc]; exact hid
      subst hrid
      rcases scan_receiver p now hn hw k r hr (hplain k r hr) with ⟨hc, -, hcon⟩ |
          ⟨-, ⟨a', ha', hac'⟩, -⟩ | ⟨-, i, e, -, -, -, -, hcon⟩
      · rw [hcon]
        exact (hsync r.id).mpr ⟨k, r, hr, rfl, hc⟩
      · have : a' = a := Option.some.inj (ha'.symm.trans ha)
        rw [this, hac] at hac'
        cases hac'
      · rw [hcon]
        exact fun hc => by cases hc

theorem scan_entry (p : Simulation) (now : ℚ) (h : p.Sound) (key : String) :
    (p.scan now).controller.connections key = p.controller.connections key ∨
    (p.controller.connections key = none ∧
      ∃ (i j : Nat) (e r : Agent), p.agents[i]? = some e ∧ p.agents[j]? = some r ∧
        e.state = "E" ∧ r.state = "R" ∧ j ≠ i ∧ p.arePhysicallyClose e r ∧ r.id = key ∧
        (p.scan now).controller.connections key = some (some e.id)) := by
  by_cases hkey : ∃ (k : Nat) (r : Agent), p.agents[k]? = some r ∧ r.id = key
  · obtain ⟨k, r, hr, rfl⟩ := hkey
    rcases scan_receiver p now h.1 h.2.1 k r hr (h.2.2.2.2 k r hr) with ⟨-, -, hcon⟩ |
        ⟨-, -, hcon⟩ |
        ⟨hc, i, e, he, hem, hre, -, hcon⟩
    · exact Or.inl hcon
    · exact Or.inl hcon
    · right
      obtain ⟨e', r', he', hr', hne, hR, hclose⟩ := reach_spec p i k hre
      have hee : e' = e := Option.some.inj (he'.symm.trans he)
      have hrr : r' = r := Option.some.inj (hr'.symm.trans hr)
      rw [hee, hrr] at hclose
      rw [hrr] at hR
      exact ⟨synced_none h hr hc, i, k, e, r, he, hr, emitting_spec p i he hem, hR, hne,
        hclose, rfl, hcon⟩
  · exact Or.inl (scan_foreign p now h.2.1 key fun k a ha hid => hkey ⟨k, a, ha, hid⟩)

theorem update_settled (a : Agent) (now : ℚ) (h : a.Settled) : (a.update now).Settled := by
  obtain ⟨-, hc, ht, hto⟩ := update_frame a now
  unfold Agent.Settled
  rw [hc, ht, hto]
  exact h

theorem sound_updated (s : Simulation) (now : ℚ) (h : s.Sound) :
    Simulation.Sound { s with agents := s.agents.map fun a => a.update now } := by
  obtain ⟨hn, hw, hset, hsync, hplain⟩ := h
  have hget : ∀ k : Nat, (s.agents.map fun a => a.update now)[k]? =
      (s.agents[k]?).map fun a => a.update now := fun k => List.getElem?_map _ _ _
  have hplain' : ∀ (k : Nat) (a : Agent),
      (s.agents.map fun a => a.update now)[k]? = some a → a.id ≠ "__proto__" := by
    intro k a ha
    rw [hget] at ha
    cases hb : s.agents[k]? with
    | none => rw [hb] at ha; cases ha
    | some b =>
      rw [hb] at ha
      cases ha
      rw [(update_frame b now).1]
      exact hplain k b hb
  refine ⟨?_, ?_, ?_, ?_, hplain'⟩
  · have : (s.agents.map fun a => a.update now).map Agent.id = s.agents.map Agent.id := by
      rw [List.map_map]
      apply List.map_congr_left
      intro a _
      exact (update_frame a now).1
    show ((s.agents.map fun a => a.update now).map Agent.id).Nodup
    rw [this]
    exact hn
  · intro a ha
    obtain ⟨b, hb, rfl⟩ := List.mem_map.mp ha
    rw [update_onEvent]
    exact hw b hb
  · intro k a ha
    have ha' : (s.agents.map fun a => a.update now)[k]? = some a := ha
    rw [hget] at ha'
    cases hb : s.agents[k]? with
    | none => rw [hb] at ha'; cases ha'
    | some b =>
      rw [hb] at ha'
      cases ha'
      exact update_settled b now (hset k b hb)
  · intro key
    show s.controller.connections key ≠ none ↔
      ∃ (k : Nat) (a : Agent), (s.agents.map fun a => a.update now)[k]? = some a ∧ a.id = key ∧
        a.connected = true
    rw [hsync key]
    constructor
    · rintro ⟨k, a, ha, hid, hac⟩
      refine ⟨k, a.update now, ?_, ?_, ?_⟩
      · rw [hget, ha]; rfl
      · rw [(update_frame a now).1]; exact hid
      · rw [(update_frame a now).2.1]; exact hac
    · rintro ⟨k, a, ha, hid, hac⟩
      rw [hget] at ha
      cases hb : s.agents[k]? with
      | none => rw [hb] at ha; cases ha
      | some b =>
        rw [hb] at ha
        cases ha
        refine ⟨k, b, hb, ?_, ?_⟩
        · rw [← (update_frame b now).1]; exact hid
        · rw [← (update_frame b now).2.1]; exact hac

theorem sound_tick (s : Simulation) (now : ℚ) (h : s.Sound) : (s.tick now).Sound :=
  sound_scan _ now (sound_updated s now h)

theorem tick_entry (s : Simulation) (now : ℚ) (h : s.Sound) (key : String) :
    (s.tick now).controller.connections key = s.controller.connections key ∨
      ∃ v, (s.tick now).controller.connections key = some v ∧ s.Opens now key v := by
  rcases scan_entry _ now (sound_updated s now h) key with hsame |
      ⟨hnone, i, j, e, r, he, hr, hE, hR, hne, hclose, hid, hcon⟩
  · exact Or.inl hsame
  · exact Or.inr ⟨some e.id, hcon, hnone, i, j, e, r, he, hr, hE, hR, hne, hclose, hid, rfl⟩

theorem fireTimer_cases (a : Agent) (handle : Nat) (now : ℚ) (h : a.Settled) :
    a.fireTimer handle now = (a, []) ∨
    (a.connected = true ∧
      a.fireTimer handle now =
        ({ a with timers := [], connected := false },
          [{ type := "DISCONNECTED", id := a.id, to_ := none }])) := by
  rcases h with ⟨hc, ht⟩ | ⟨hc, t, ht, hto⟩
  · left
    simp [Agent.fireTimer, ht]
  · by_cases hf : t.handle = handle ∧ t.due ≤ now
    · right
      refine ⟨hc, ?_⟩
      simp [Agent.fireTimer, ht, hf, Agent.disconnect]
    · left
      simp only [Agent.fireTimer, ht, List.any_cons, List.any_nil, Bool.or_false,
        decide_eq_true_eq, if_neg hf]

theorem sound_fire (s : Simulation) (j handle : Nat) (now : ℚ) (h : s.Sound) :
    (s.fireTimer j handle now).Sound ∧
      ∀ key, (s.fireTimer j handle now).controller.connections key
          = s.controller.connections key ∨
        (s.fireTimer j handle now).controller.connections key = none := by
  obtain ⟨hn, hw, hset, hsync, hplain⟩ := h
  unfold Simulation.fireTimer
  cases hj : s.agents[j]? with
  | none => exact ⟨⟨hn, hw, hset, hsync, hplain⟩, fun key => Or.inl rfl⟩
  | some a =>
    simp only
    rcases fireTimer_cases a handle now (hset j a hj) with hs | ⟨hc, hs⟩
    · rw [hs]
      show Simulation.Sound { s with agents := s.agents.set j a, trace := s.trace ++ [] } ∧
        ∀ key, s.controller.connections key = s.controller.connections key ∨
          s.controller.connections key = none
      rw [set_eq_self _ _ _ hj]
      exact ⟨⟨hn, hw, hset, hsync, hplain⟩, fun key => Or.inl rfl⟩
    · rw [hs]
      have hon : a.onEvent = fun ev c => c.handleEvent ev := hw a (List.getElem?_mem hj)
      have hconn : ∀ key, (s.controller.handleEvent
          { type := "DISCONNECTED", id := a.id, to_ := none }).connections key =
          if key = a.id then none else s.controller.connections key := by
        intro key
        simp [Controller.handleEvent]
      have hget : ∀ k : Nat, k ≠ j →
          (s.agents.set j { a with timers := [], connected := false })[k]? = s.agents[k]? :=
        fun k hk => List.getElem?_set_ne (Ne.symm hk)
      have hgetj : (s.agents.set j { a with timers := [], connected := false })[j]? =
          some { a with timers := [], connected := false } := getElem?_set_at hj _
      have hctl : a.onEvent { type := "DISCONNECTED", id := a.id, to_ := none } s.controller =
          s.controller.handleEvent { type := "DISCONNECTED", id := a.id, to_ := none } := by
        rw [hon]
      have hplain' : ∀ (k : Nat) (b : Agent),
          (s.agents.set j { a with timers := [], connected := false })[k]? = some b →
          b.id ≠ "__proto__" := by
        intro k b hb
        by_cases hk : k = j
        · subst hk
          have : b = { a with timers := [], connected := false } :=
            Option.some.inj (hb.symm.trans hgetj)
          rw [this]
          exact hplain k a hj
        · exact hplain k b ((hget k hk).symm.trans hb)
      simp only [List.foldl_cons, List.foldl_nil]
      rw [hctl]
      refine ⟨⟨?_, ?_, ?_, ?_, hplain'⟩, ?_⟩
      · show ((s.agents.set j { a with timers := [], connected := false }).map Agent.id).Nodup
        rw [List.map_set, set_eq_self]
        · exact hn
        · rw [List.getElem?_map, hj]; rfl
      · intro b hb
        rcases List.mem_or_eq_of_mem_set hb with hb | hb
        · exact hw b hb
        · rw [hb]; exact hon
      · intro k b hb
        by_cases hk : k = j
        · subst hk
          have : b = { a with timers := [], connected := false } :=
            Option.some.inj (hb.symm.trans hgetj)
          rw [this]
          exact Or.inl ⟨rfl, rfl⟩
        · exact hset k b ((hget k hk).symm.trans hb)
      · intro key
        show (s.controller.handleEvent
            { type := "DISCONNECTED", id := a.id, to_ := none }).connections key ≠ none ↔
          ∃ (k : Nat) (b : Agent),
            (s.agents.set j { a with timers := [], connected := false })[k]? = some b ∧
              b.id = key ∧ b.connected = true
        rw [hconn]
        by_cases hkey : key = a.id
        · rw [if_pos hkey]
          constructor
          · intro hne; exact absurd rfl hne
          · rintro ⟨k, b, hb, hid, hbc⟩
            by_cases hk : k = j
            · subst hk
              have : b = { a with timers := [], connected := false } :=
                Option.some.inj (hb.symm.trans hgetj)
              rw [this] at hbc
              cases hbc
            · have hb' : s.agents[k]? = some b := (hget k hk).symm.trans hb
              exact absurd (same_index hn hj hb' (hid.trans hkey)).1 hk
        · rw [if_neg hkey, hsync key]
          constructor
          · rintro ⟨k, b, hb, hid, hbc⟩
            have hk : k ≠ j := by
              intro hk
              subst hk
              have : b = a := Option.some.inj (hb.symm.trans hj)
              rw [this] at hid
              exact hkey hid.symm
            exact ⟨k, b, (hget k hk).trans hb, hid, hbc⟩
          · rintro ⟨k, b, hb, hid, hbc⟩
            have hk : k ≠ j := by
              intro hk
              subst hk
              have : b = { a with timers := [], connected := false } :=
                Option.some.inj (hb.symm.trans hgetj)
              rw [this] at hbc
              cases hbc
            exact ⟨k, b, (hget k hk).symm.trans hb, hid, hbc⟩
      · intro key
        show (s.controller.handleEvent
            { type := "DISCONNECTED", id := a.id, to_ := none }).connections key = _ ∨
          (s.controller.handleEvent
            { type := "DISCONNECTED", id := a.id, to_ := none }).connections key = none
        rw [hconn]
        by_cases hkey : key = a.id
        · right; rw [if_pos hkey]
        · left; rw [if_neg hkey]

theorem exec_concat (s : Simulation) (acts : List SimAction) (act : SimAction) :
    s.exec (acts ++ [act]) = (s.exec acts).step act := by
  simp [Simulation.exec, List.foldl_append]

theorem sound_step (s : Simulation) (act : SimAction) (h : s.Sound) : (s.step act).Sound := by
  cases act with
  | tick now =>
    show (if s.liveIntervals.isEmpty then s else s.tick now).Sound
    split
    · exact h
    · exact sound_tick s now h
  | fireTimer j handle now => exact (sound_fire s j handle now h).1

theorem sound_exec (acts : List SimAction) (s : Simulation) (h : s.Sound) :
    (s.exec acts).Sound := by
  induction acts generalizing s with
  | nil => exact h
  | cons act rest ih => exact ih _ (sound_step s act h)

theorem step_entry (s : Simulation) (act : SimAction) (h : s.Sound) (key : String) :
    (s.step act).controller.connections key = s.controller.connections key ∨
    (s.step act).controller.connections key = none ∨
    ∃ now v, act = .tick now ∧ (s.step act).controller.connections key = some v ∧
      s.Opens now key v := by
  cases act with
  | tick now =>
    show (if s.liveIntervals.isEmpty then s else s.tick now).controller.connections key = _ ∨
      (if s.liveIntervals.isEmpty then s else s.tick now).controller.connections key = none ∨
      ∃ now' v, SimAction.tick now = .tick now' ∧
        (if s.liveIntervals.isEmpty then s else s.tick now).controller.connections key = some v ∧
        s.Opens now' key v
    by_cases hl : s.liveIntervals.isEmpty = true
    · simp only [if_pos hl, true_or]
    · simp only [if_neg hl]
      rcases tick_entry s now h key with hsame | ⟨v, hv, hop⟩
      · exact Or.inl hsame
      · exact Or.inr (Or.inr ⟨now, v, rfl, hv, hop⟩)
  | fireTimer j handle now =>
    rcases (sound_fire s j handle now h).2 key with hsame | hnone
    · exact Or.inl hsame
    · exact Or.inr (Or.inl hnone)

theorem exec_episode (s₀ : Simulation) (h : s₀.Sound)
    (h0 : ∀ key, s₀.controller.connections key = none) (acts : List SimAction) :
    ∀ key v, (s₀.exec acts).controller.connections key = some v → s₀.Episode acts key v := by
  induction acts using List.reverseRecOn with
  | nil =>
    intro key v hv
    have : s₀.exec [] = s₀ := rfl
    rw [this, h0 key] at hv
    cases hv
  | append_singleton acts act ih =>
    intro key v hv
    rw [exec_concat] at hv
    have hkeep : (s₀.exec acts).controller.connections key = some v →
        s₀.Episode (acts ++ [act]) key v := by
      intro hold
      obtain ⟨pre, now, post, hacts, hopen, hlive⟩ := ih key v hold
      refine ⟨pre, now, post ++ [act], ?_, hopen, ?_⟩
      · rw [hacts, List.append_assoc, List.cons_append]
      · intro post' hpre
        rcases List.prefix_concat_iff.mp hpre with heq | hpre'
        · rw [heq, ← List.cons_append, ← List.append_assoc, ← hacts, exec_concat]
          exact hv
        · exact hlive post' hpre'
    rcases step_entry (s₀.exec acts) act (sound_exec acts s₀ h) key with hsame | hnone |
        ⟨now, v', hact, hv', hopen⟩
    · exact hkeep (hsame.symm.trans hv)
    · rw [hnone] at hv
      cases hv
    · have hvv : v' = v := Option.some.inj (hv'.symm.trans hv)
      subst hvv
      refine ⟨acts, now, [], by rw [hact], hopen, ?_⟩
      intro post' hpre
      rw [List.prefix_nil.mp hpre, ← hact, exec_concat]
      exact hv

theorem fireTimer_id (a : Agent) (handle : Nat) (now : ℚ) :
    (a.fireTimer handle now).1.id = a.id := by
  unfold Agent.fireTimer
  split <;> rfl

theorem step_ids (s : Simulation) (act : SimAction) :
    (s.step act).agents.map Agent.id = s.agents.map Agent.id := by
  cases act with
  | tick now =>
    show (if s.liveIntervals.isEmpty then s else s.tick now).agents.map Agent.id = _
    split
    · rfl
    · have hF := (scan_calls { s with agents := s.agents.map fun a => a.update now } now).1
      have h1 := frame_ids hF
      have h2 : (s.agents.map fun a => a.update now).map Agent.id = s.agents.map Agent.id := by
        rw [List.map_map]
        apply List.map_congr_left
        intro a _
        exact (update_frame a now).1
      exact h1.trans h2
  | fireTimer j handle now =>
    show (s.fireTimer j handle now).agents.map Agent.id = _
    unfold Simulation.fireTimer
    cases hj : s.agents[j]? with
    | none => rfl
    | some a =>
      show (s.agents.set j (a.fireTimer handle now).1).map Agent.id = _
      rw [List.map_set, fireTimer_id, set_eq_self]
      rw [List.getElem?_map, hj]
      rfl

theorem exec_ids (acts : List SimAction) (s : Simulation) :
    (s.exec acts).agents.map Agent.id = s.agents.map Agent.id := by
  induction acts generalizing s with
  | nil => rfl
  | cons act rest ih => exact (ih (s.step act)).trans (step_ids s act)

theorem sound_start (agents : List Agent) (radius : ℚ) (hn : (agents.map Agent.id).Nodup)
    (hw : ∀ a ∈ agents, a.onEvent = fun ev c => c.handleEvent ev)
    (hfresh : ∀ a ∈ agents, a.connected = false ∧ a.timers = [])
    (hplain : ∀ a ∈ agents, a.id ≠ "__proto__") :
    (Simulation.new Controller.new agents radius).run.Sound := by
  refine ⟨hn, hw, ?_, ?_, ?_⟩
  · intro k a ha
    exact Or.inl (hfresh a (List.getElem?_mem ha))
  rotate_left
  · intro k a ha
    exact hplain a (List.getElem?_mem ha)
  · intro key
    constructor
    · intro hne
      exact absurd rfl hne
    · rintro ⟨k, a, ha, -, hac⟩
      have ha' : agents[k]? = some a := ha
      rw [(hfresh a (List.getElem?_mem ha')).1] at hac
      cases hac

/-- The controller's view when no agent has the id "__proto__": start the simulation over
agents with pairwise distinct ids, all wired to the controller's `handleEvent`, none
connected, and an empty map. After any sequence of ticks and timer firings the controller
has an entry for a key exactly when the agent with that id is connected; and every entry's
value is the id of another agent of the list, the one that was emitting and in range of the
receiver at the tick that opened the episode: before that tick the key had no entry, and
the entry has had this value ever since. -/
theorem connections_mirror_plain_ids (agents : List Agent) (radius : ℚ)
    (acts : List SimAction) (hn : (agents.map Agent.id).Nodup)
    (hw : ∀ a ∈ agents, a.onEvent = fun ev c => c.handleEvent ev)
    (hfresh : ∀ a ∈ agents, a.connected = false ∧ a.timers = [])
    (hplain : ∀ a ∈ agents, a.id ≠ "__proto__") :
    (∀ key,
      ((Simulation.new Controller.new agents radius).run.exec acts).controller.connections key
          ≠ none ↔
        ∃ a ∈ ((Simulation.new Controller.new agents radius).run.exec acts).agents,
          a.id = key ∧ a.connected = true) ∧
    (∀ key v,
      ((Simulation.new Controller.new agents radius).run.exec acts).controller.connections key
          = some v →
        (∃ e ∈ ((Simulation.new Controller.new agents radius).run.exec acts).agents,
          ∃ r ∈ ((Simulation.new Controller.new agents radius).run.exec acts).agents,
            r.id = key ∧ e.id ≠ r.id ∧ v = some e.id) ∧
        (Simulation.new Controller.new agents radius).run.Episode acts key v) := by
  have h0 := sound_start agents radius hn hw hfresh hplain
  have hS := sound_exec acts _ h0
  constructor
  · intro key
    rw [hS.2.2.2.1 key]
    constructor
    · rintro ⟨k, a, ha, hid, hac⟩
      exact ⟨a, List.getElem?_mem ha, hid, hac⟩
    · rintro ⟨a, ha, hid, hac⟩
      obtain ⟨k, hk⟩ := List.mem_iff_getElem?.mp ha
      exact ⟨k, a, hk, hid, hac⟩
  · intro key v hv
    have hep := exec_episode _ h0 (fun _ => rfl) acts key v hv
    refine ⟨?_, hep⟩
    obtain ⟨pre, now, post, -, ⟨-, i, j, e, r, he, hr, -, -, hne, -, hid, hve⟩, -⟩ := hep
    have hids : ((Simulation.new Controller.new agents radius).run.exec acts).agents.map Agent.id
        = (((Simulation.new Controller.new agents radius).run.exec pre).agents.map
            fun a => a.update now).map Agent.id := by
      rw [exec_ids, List.map_map]
      have : (Agent.id ∘ fun a => a.update now) = Agent.id := by
        funext a
        exact (update_frame a now).1
      rw [this, exec_ids]
    have hget : ∀ (k : Nat) (x : Agent),
        (((Simulation.new Controller.new agents radius).run.exec pre).agents.map
          fun a => a.update now)[k]? = some x →
        ∃ x', ((Simulation.new Controller.new agents radius).run.exec acts).agents[k]? = some x' ∧
          x'.id = x.id := by
      intro k x hx
      have h1 := congrArg (fun l => l[k]?) hids
      simp only [List.getElem?_map, hx, Option.map_some'] at h1
      cases hx' : ((Simulation.new Controller.new agents radius).run.exec acts).agents[k]? with
      | none => rw [hx'] at h1; cases h1
      | some x' =>
        rw [hx'] at h1
        exact ⟨x', rfl, Option.some.inj h1⟩
    obtain ⟨e', he', hei⟩ := hget i e he
    obtain ⟨r', hr', hri⟩ := hget j r hr
    refine ⟨e', List.getElem?_mem he', r', List.getElem?_mem hr', hri.trans hid, ?_, ?_⟩
    · exact fun hc => nodup_id_ne hS.1 he' hr' hne hc.symm
    · rw [hve, hei]

/-- C19 on the code: the simulation over the agents "A" at (0,0) and "__proto__" at (5,5),
ids pairwise distinct, handlers wired, map empty, is started and ticks at time 500, after
whose updates "A" emits and "__proto__" receives. The receiver is connected and the event
CONNECTED{id: "__proto__", to: "A"} is delivered, but the controller's plain object gets
no entry for "__proto__": the map does not mirror the agents. -/
theorem proto_agent_connected_without_entry :
    ([Agent.new "A" 0 0 (fun e c => c.handleEvent e) (1 / 2) 0,
      Agent.new "__proto__" 5 5 (fun e c => c.handleEvent e) 0 0].map Agent.id).Nodup ∧
    ((Simulation.new Controller.new
      [Agent.new "A" 0 0 (fun e c => c.handleEvent e) (1 / 2) 0,
       Agent.new "__proto__" 5 5 (fun e c => c.handleEvent e) 0 0] 10).run.exec
        [.tick 500]).agents.map (fun a => (a.id, a.state, a.connected))
      = [("A", "E", false), ("__proto__", "R", true)] ∧
    ((Simulation.new Controller.new
      [Agent.new "A" 0 0 (fun e c => c.handleEvent e) (1 / 2) 0,
       Agent.new "__proto__" 5 5 (fun e c => c.handleEvent e) 0 0] 10).run.exec
        [.tick 500]).trace = [{ type := "CONNECTED", id := "__proto__", to_ := some "A" }] ∧
    ((Simulation.new Controller.new
      [Agent.new "A" 0 0 (fun e c => c.handleEvent e) (1 / 2) 0,
       Agent.new "__proto__" 5 5 (fun e c => c.handleEvent e) 0 0] 10).run.exec
        [.tick 500]).controller.connections "__proto__" = none := by
  refine ⟨by decide, by decide!, by decide!, by decide!⟩

end PolyMesh
